import Mathlib

set_option maxRecDepth 100000

/-!
Verification development for the TrueBlocks decode-and-valuation pipeline.

The definitions below are a shallow embedding of the Python sources
src/modules/fetch/A01_decode_txs.py (log decoder, delta engine, classifier,
row formatting) and src/modules/fetch/A02_onchain_price_WETH_WBTC.py
(block-time resolver, AMM price oracle, output columns).

Conventions of the embedding:
* Python strings are Lean String; missing dict entries are modelled as
  Option or as the empty string, following how each call site reads them.
* Python int(...) parsing that can raise is modelled with Option / Except;
  a raised exception is Except.error ().
* Network calls (internal transfer feed, traces, balances, token metadata,
  block headers) are modelled as explicit oracle inputs: the value the
  chain client would return is passed in as data.
* decimal.Decimal arithmetic with context precision p is modelled as exact
  rational arithmetic followed by rounding to p significant digits with
  round-half-even (decRound below), which is Decimal's rounding mode.
-/

/-! ## Hex / string utilities (A01 lines 153-177) -/

/-- Value of one hexadecimal digit character, if it is one. -/
def hexDigitVal (c : Char) : Option Nat :=
  if '0' ≤ c ∧ c ≤ '9' then some (c.toNat - '0'.toNat)
  else if 'a' ≤ c ∧ c ≤ 'f' then some (c.toNat - 'a'.toNat + 10)
  else if 'A' ≤ c ∧ c ≤ 'F' then some (c.toNat - 'A'.toNat + 10)
  else none

def isHexCharB (c : Char) : Bool := (hexDigitVal c).isSome

/-- Parse a list of hex digit characters, most significant first. -/
def parseHexDigits : List Char → Option Nat
  | [] => none
  | cs => cs.foldl (fun acc c =>
      match acc, hexDigitVal c with
      | some a, some v => some (a * 16 + v)
      | _, _ => none) (some 0)

/-- Model of Python int(x, 16) on the strings used by the code: an optional
0x / 0X prefix followed by at least one hex digit. -/
def parseHex (s : String) : Option Nat :=
  match s.data with
  | '0' :: 'x' :: rest => parseHexDigits rest
  | '0' :: 'X' :: rest => parseHexDigits rest
  | cs => parseHexDigits cs

/-- Model of Python int(x) for base-10 integer strings: optional sign and
at least one decimal digit. -/
def parseDecInt (s : String) : Option Int :=
  let digits : List Char → Option Nat := fun cs =>
    match cs with
    | [] => none
    | _ => cs.foldl (fun acc c =>
        match acc with
        | some a => if c.isDigit then some (a * 10 + (c.toNat - '0'.toNat)) else none
        | none => none) (some 0)
  match s.data with
  | '-' :: rest => (digits rest).map (fun n => -(n : Int))
  | '+' :: rest => (digits rest).map (fun n => (n : Int))
  | cs => (digits cs).map (fun n => (n : Int))

/-- A01 is_hex_data: "0x"-prefixed, even-length payload of hex characters
(empty payload allowed). -/
def is_hex_data (s : String) : Bool :=
  match s.data with
  | '0' :: 'x' :: payload => payload.length % 2 == 0 && payload.all isHexCharB
  | _ => false

/-- A01 h2i: 0 for None / "" / "0x", otherwise int(x, 16); raising on a
string that is not valid hex is the error case. -/
def h2i (x : Option String) : Except Unit Nat :=
  match x with
  | none => .ok 0
  | some s =>
    if s = "" ∨ s = "0x" then .ok 0
    else match parseHex s with
      | some n => .ok n
      | none => .error ()

/-- ASCII lowercase of one character (Python str.lower on the hex/address
strings this code handles). -/
def lowerChar (c : Char) : Char :=
  if 'A' ≤ c ∧ c ≤ 'Z' then Char.ofNat (c.toNat + 32) else c

def toLowerStr (s : String) : String := String.mk (s.data.map lowerChar)

def isWSChar (c : Char) : Bool := c = ' ' ∨ c = '\t' ∨ c = '\n' ∨ c = '\r'

/-- Python str.strip(). -/
def trimStr (s : String) : String :=
  String.mk (((s.data.dropWhile isWSChar).reverse.dropWhile isWSChar).reverse)

/-- A01 address_from_topic: "0x" ++ last 40 characters, checksummed then
lowercased; any checksum failure (wrong length or non-hex) yields "". -/
def address_from_topic (topic : String) : String :=
  let cs := topic.data
  let last40 := cs.drop (cs.length - 40)
  if last40.length = 40 ∧ last40.all isHexCharB then
    String.mk ('0' :: 'x' :: last40.map lowerChar)
  else ""

/-! ## Event signature topics (A01 lines 180-194).
The keccak-256 signature hashes are precomputed constants. -/

def TOPIC_TRANSFER : String :=
  "0xddf252ad1be2c89b69c2b068fc378daa952ba7f163c4a11628f55a4df523b3ef"
def TOPIC_TRANSFER_SINGLE : String :=
  "0xc3d58168c5ae7397731d063d5bbf3d657854427343f4c083240f7aacaa2d0f62"
def TOPIC_TRANSFER_BATCH : String :=
  "0x4a39dc06d4c0dbc64b70af90fd698a233a518aa5d07e595d983b8c0526c8f7fb"
def TOPIC_WETH_DEPOSIT : String :=
  "0xe1fffcc4923d04b559f4d29a8bfc6cda04eb5b0d3c460751c2402c5c5cc9109c"
def TOPIC_WETH_WITHDRAWAL : String :=
  "0x7fcf532c15f0a6db0bd6d0e038bea71d30d808c7d98cb3bf7268a95bf5081b65"
def TOPIC_SWAP_V3 : String :=
  "0xc42079f94a6350d7e6235f29174924f928cc2ac818eb64fed8004e115fbcca67"
def TOPIC_MINT_V3 : String :=
  "0x7a53080ba414158be7ec69b987b5fb7d07dee101fe85488f0853ae16239d0bde"
def TOPIC_BURN_V3 : String :=
  "0x0c396cd989a39f4459b5fa1aed6a9a8dcdbc45908acfd67e028cd568da98982c"
def TOPIC_INC_LIQ_V3 : String :=
  "0x3067048beee31b25b2f1681f88dac838c8bba36af25bfb2b7cf7473a5847e35f"
def TOPIC_DEC_LIQ_V3 : String :=
  "0x26f6a048ee9138f2c0ce266f322cb99228e8d619ae2bff30c67f8dcf9d2377b4"
def TOPIC_SWAP_V2 : String :=
  "0xd78ad95fa46c994b6551d0da85fc275fe613ce37657fb8d5e3d130840159d822"
def TOPIC_MINT_V2 : String :=
  "0x4c209b5fc8ad50758f13e2e1088ba56a560dff690a1c6fef26394f4c03821c4f"
def TOPIC_BURN_V2 : String :=
  "0xdccd412f0b1252819cb1fd330b93224ca42612892bb3f4f789976e6d81936496"

/-! ## Data model of the decoder inputs -/

structure LogEntry where
  address : String
  topics : List String
  data : Option String
  deriving DecidableEq

structure Receipt where
  status : String
  gasUsed : Option String
  effectiveGasPrice : Option String
  logs : List LogEntry
  deriving DecidableEq

structure RowTx where
  hash : String
  fromAddr : String
  toAddr : String
  value : String
  blockNumber : String
  blockHash : String
  timeStamp : String
  gasPrice : String
  deriving DecidableEq

/-- One record of the txlistinternal feed as the code reads it. -/
structure InternalTx where
  fromAddr : String
  toAddr : String
  value : String
  deriving DecidableEq

/-- Chain-client responses consumed by compute_wallet_deltas, passed in as
data: the internal-transfer list (empty when the feed fails or has
status other than "1"), the value trace_eth_delta would return, and the
two eth_getBalance responses of the balance-diff fallback. -/
structure ChainOracle where
  internals : List InternalTx
  traceResult : Option Int
  balBefore : String
  balAfter : String
  deriving DecidableEq

/-! ## ABI decoding of (uint256[], uint256[]) (eth_abi.decode model) -/

def beBytes (bs : List Nat) : Nat := bs.foldl (fun acc b => acc * 256 + b) 0

def readWord (bs : List Nat) (off : Nat) : Option Nat :=
  if off + 32 ≤ bs.length then some (beBytes ((bs.drop off).take 32)) else none

def readUintArray (bs : List Nat) (off : Nat) : Option (List Nat) :=
  match readWord bs off with
  | none => none
  | some n =>
    if off + 32 + 32 * n ≤ bs.length then
      some ((List.range n).map (fun i => beBytes ((bs.drop (off + 32 + 32 * i)).take 32)))
    else none

/-- abi_decode(["uint256[]", "uint256[]"], bs): two head words are offsets
to length-prefixed element sections; any out-of-range access raises. -/
def abiDecodeUintArrays (bs : List Nat) : Option (List Nat × List Nat) :=
  match readWord bs 0, readWord bs 32 with
  | some o1, some o2 =>
    match readUintArray bs o1, readUintArray bs o2 with
    | some ids, some vals => some (ids, vals)
    | _, _ => none
  | _, _ => none

def hexPairsToBytes : List Char → List Nat
  | a :: b :: rest =>
      ((hexDigitVal a).getD 0 * 16 + (hexDigitVal b).getD 0) :: hexPairsToBytes rest
  | _ => []

/-- bytes.fromhex(data_hex[2:]) on a string already validated by is_hex_data. -/
def bytesOfHexData (s : String) : List Nat := hexPairsToBytes (s.data.drop 2)

/-! ## compute_wallet_deltas (A01 lines 312-429) -/

/-- Mutable state of the log loop: the erc20_eth dict (insertion-ordered
association list, unique keys), the eth_log_delta accumulator, and the
nft_moves list. -/
structure DeltaState where
  erc20 : List (String × Int)
  ethDelta : Int
  nft : List (String × Nat × Int)
  deriving DecidableEq

/-- dict.get(k, 0) -/
def dictGetD (m : List (String × Int)) (k : String) : Int :=
  match m.find? (fun kv => kv.1 = k) with
  | some kv => kv.2
  | none => 0

/-- dict[k] = v : replace in place, or append preserving insertion order. -/
def dictSet (m : List (String × Int)) (k : String) (v : Int) : List (String × Int) :=
  match m with
  | [] => [(k, v)]
  | kv :: rest => if kv.1 = k then (k, v) :: rest else kv :: dictSet rest k v

def dictAdd (m : List (String × Int)) (k : String) (d : Int) : List (String × Int) :=
  dictSet m k (dictGetD m k + d)

def dictMem (m : List (String × Int)) (k : String) : Bool :=
  (m.find? (fun kv => kv.1 = k)).isSome

/-- ERC-1155 batch loop body: zip(ids, values); q ≤ 0 skipped; one signed
move appended per matching direction. -/
def batchMoves (wallet addr frm toA : String) (pairs : List (Nat × Nat)) :
    List (String × Nat × Int) :=
  pairs.foldl (fun acc p =>
    if p.2 = 0 then acc
    else
      acc ++ (if frm = wallet then [(addr, p.1, -(p.2 : Int))] else [])
          ++ (if toA = wallet then [(addr, p.1, (p.2 : Int))] else [])) []

/-- One iteration of the log loop of compute_wallet_deltas: dispatch on the
first topic. Except.error models an uncaught exception inside the loop. -/
def processLog (wallet : String) (st : DeltaState) (lg : LogEntry) :
    Except Unit DeltaState :=
  match lg.topics with
  | [] => .ok st
  | t0 :: _ =>
    let t := lg.topics
    let addr := toLowerStr lg.address
    if t0 = TOPIC_TRANSFER ∧ 3 ≤ t.length then
      let frm := address_from_topic (t.getD 1 "")
      let toA := address_from_topic (t.getD 2 "")
      if 4 ≤ t.length then
        -- ERC-721: token_id = h2i(t[3]) raises on a non-hex topic
        match h2i (some (t.getD 3 "")) with
        | .error e => .error e
        | .ok token_id =>
          if wallet ≠ "" then
            let m1 := if frm = wallet then [(addr, token_id, (-1 : Int))] else []
            let m2 := if toA = wallet then [(addr, token_id, (1 : Int))] else []
            .ok { st with nft := st.nft ++ m1 ++ m2 }
          else .ok st
      else
        -- ERC-20: amount read only when the data payload is valid hex
        let data_hex := lg.data.getD "0x"
        if is_hex_data data_hex ∧ data_hex ≠ "0x" then
          let amt := ((parseHex data_hex).getD 0 : Int)
          if wallet ≠ "" ∧ 0 < amt then
            let st1 := if frm = wallet then { st with erc20 := dictAdd st.erc20 addr (-amt) } else st
            let st2 := if toA = wallet then { st1 with erc20 := dictAdd st1.erc20 addr amt } else st1
            .ok st2
          else .ok st
        else .ok st
    else if t0 = TOPIC_TRANSFER_SINGLE ∧ 4 ≤ t.length then
      -- data_hex = (lg.get("data") or "0x")[2:]
      let d0 := match lg.data with
        | none => "0x"
        | some s => if s = "" then "0x" else s
      let payload := d0.data.drop 2
      if 128 ≤ payload.length then
        -- int(data_hex[0:64], 16) and int(data_hex[64:128], 16) raise on non-hex
        match parseHexDigits (payload.take 64), parseHexDigits ((payload.drop 64).take 64) with
        | some token_id, some qty =>
          let frm := address_from_topic (t.getD 2 "")
          let toA := address_from_topic (t.getD 3 "")
          if wallet ≠ "" ∧ 0 < qty then
            let m1 := if frm = wallet then [(addr, token_id, -(qty : Int))] else []
            let m2 := if toA = wallet then [(addr, token_id, (qty : Int))] else []
            .ok { st with nft := st.nft ++ m1 ++ m2 }
          else .ok st
        | _, _ => .error ()
      else .ok st
    else if t0 = TOPIC_TRANSFER_BATCH ∧ 4 ≤ t.length then
      let d0 := match lg.data with
        | none => "0x"
        | some s => if s = "" then "0x" else s
      if is_hex_data d0 ∧ d0 ≠ "0x" then
        let dec := abiDecodeUintArrays (bytesOfHexData d0)
        let ids := (dec.map Prod.fst).getD []
        let vals := (dec.map Prod.snd).getD []
        let frm := address_from_topic (t.getD 2 "")
        let toA := address_from_topic (t.getD 3 "")
        if wallet ≠ "" ∧ ids.length = vals.length then
          .ok { st with nft := st.nft ++ batchMoves wallet addr frm toA (ids.zip vals) }
        else .ok st
      else .ok st
    else if t0 = TOPIC_WETH_WITHDRAWAL ∧ 2 ≤ t.length then
      let who := address_from_topic (t.getD 1 "")
      match h2i lg.data with
      | .error e => .error e
      | .ok amt =>
        if wallet ≠ "" ∧ who = wallet ∧ 0 < amt then
          .ok { st with ethDelta := st.ethDelta + amt }
        else .ok st
    else if t0 = TOPIC_WETH_DEPOSIT ∧ 2 ≤ t.length then
      let who := address_from_topic (t.getD 1 "")
      match h2i lg.data with
      | .error e => .error e
      | .ok amt =>
        if wallet ≠ "" ∧ who = wallet ∧ 0 < amt then
          .ok { st with ethDelta := st.ethDelta - amt }
        else .ok st
    else .ok st

/-- Internal-transfers loop (A01 lines 390-401).  The whole block is inside
try/except, so a value that fails int() stops the loop but keeps the
contributions already accumulated. -/
def internalsDelta (wallet : String) : List InternalTx → Int → Int
  | [], acc => acc
  | itx :: rest, acc =>
    match parseDecInt (if itx.value = "" then "0" else itx.value) with
    | none => acc
    | some val =>
      if wallet = "" ∨ val ≤ 0 then internalsDelta wallet rest acc
      else
        let acc1 := if toLowerStr itx.toAddr = wallet then acc + val else acc
        let acc2 := if toLowerStr itx.fromAddr = wallet then acc1 - val else acc1
        internalsDelta wallet rest acc2

/-- Balance-diff fallback (A01 lines 412-427); the whole block is inside
try/except, so any parse failure discards it; returns the value to store
under "eth", if any. -/
def balanceFallback (row : RowTx) (rcpt : Receipt) (wallet : String)
    (oracle : ChainOracle) : Option Int :=
  match parseDecInt (if row.blockNumber = "" then "0" else row.blockNumber) with
  | none => none
  | some _ =>
    match h2i (some oracle.balBefore), h2i (some oracle.balAfter) with
    | .ok balBefore, .ok balAfter =>
      let ethDelta0 : Int := (balAfter : Int) - (balBefore : Int)
      if toLowerStr row.fromAddr = wallet then
        match h2i rcpt.gasUsed, h2i rcpt.effectiveGasPrice with
        | .ok gasUsed, .ok effP =>
          match (if effP ≠ 0 then some (effP : Int)
                 else parseDecInt (if row.gasPrice = "" then "0" else row.gasPrice)) with
          | none => none
          | some effPrice =>
            let gasCost := if gasUsed ≠ 0 ∧ effPrice ≠ 0 then (gasUsed : Int) * effPrice else 0
            let d := ethDelta0 + gasCost
            if d ≠ 0 then some d else none
        | _, _ => none
      else if ethDelta0 ≠ 0 then some ethDelta0 else none
    | _, _ => none

/-- wallet = (wallet or "").lower().strip() -/
def pyWallet (wallet0 : String) : String := trimStr (toLowerStr wallet0)

/-- State before the log loop: the native delta seeded from the outer
msg.value, signed by whether the wallet is sender or recipient. -/
def initialDelta (row : RowTx) (wallet : String) : DeltaState :=
  let outerVal := (parseDecInt (if row.value = "" then "0" else row.value)).getD 0
  let eth0 : Int :=
    if wallet ≠ "" ∧ 0 < outerVal then
      (if toLowerStr row.fromAddr = wallet then -outerVal else 0)
      + (if toLowerStr row.toAddr = wallet then outerVal else 0)
    else 0
  ⟨[], eth0, []⟩

/-- After the log loop: internal transfers, then the trace and balance-diff
fallbacks for the native delta (A01 lines 389-429). -/
def finishDeltas (row : RowTx) (rcpt : Receipt) (wallet : String) (oracle : ChainOracle)
    (st : DeltaState) : List (String × Int) :=
  let ethAfterInternals := internalsDelta wallet oracle.internals st.ethDelta
  let m1 := if ethAfterInternals ≠ 0 then dictAdd st.erc20 "eth" ethAfterInternals else st.erc20
  let m2 :=
    if dictMem m1 "eth" then m1
    else match oracle.traceResult with
      | some t => if t ≠ 0 then dictSet m1 "eth" t else m1
      | none => m1
  if dictMem m2 "eth" then m2
  else match balanceFallback row rcpt wallet oracle with
    | some d => dictSet m2 "eth" d
    | none => m2

/-- A01 compute_wallet_deltas: outer value seed, log loop, internal
transfers, trace fallback, balance-diff fallback. -/
def compute_wallet_deltas (row : RowTx) (rcpt : Receipt) (wallet0 : String)
    (oracle : ChainOracle) : Except Unit (List (String × Int) × List (String × Nat × Int)) :=
  match rcpt.logs.foldlM (processLog (pyWallet wallet0)) (initialDelta row (pyWallet wallet0)) with
  | .error e => .error e
  | .ok st => .ok (finishDeltas row rcpt (pyWallet wallet0) oracle st, st.nft)

/-! ## Classification (A01 lines 304-309, 480-486) -/

def classify_from_topics (logs : List LogEntry) : Option String :=
  let t0s := logs.filterMap (fun lg => lg.topics.head?)
  if t0s.any (fun t => t = TOPIC_SWAP_V3 ∨ t = TOPIC_SWAP_V2) then some "swap"
  else if t0s.any (fun t => t = TOPIC_MINT_V3 ∨ t = TOPIC_INC_LIQ_V3 ∨ t = TOPIC_MINT_V2) then
    some "add_liquidity"
  else if t0s.any (fun t => t = TOPIC_BURN_V3 ∨ t = TOPIC_DEC_LIQ_V3 ∨ t = TOPIC_BURN_V2) then
    some "remove_liquidity"
  else none

def classify_from_balances (erc20_eth : List (String × Int)) : String :=
  let outs := (erc20_eth.map Prod.snd).countP (fun v => v < 0)
  let ins := (erc20_eth.map Prod.snd).countP (fun v => 0 < v)
  if 1 ≤ outs ∧ 1 ≤ ins then "swap"
  else if 1 ≤ outs ∧ ins = 0 then "add_liquidity"
  else if outs = 0 ∧ 1 ≤ ins then "remove_liquidity"
  else "unknown"

/-! ## decimal.Decimal model: round-half-even at p significant digits -/

/-- Round-half-even to the nearest integer (Decimal's ROUND_HALF_EVEN). -/
def roundHE (x : ℚ) : ℤ :=
  let f := ⌊x⌋
  let r := x - f
  if r < 1/2 then f
  else if 1/2 < r then f + 1
  else if Even f then f else f + 1

/-- Floor of log10 for naturals, by fuelled repeated division. -/
def nlog10 : Nat → Nat → Nat
  | 0, _ => 0
  | fuel + 1, n => if n < 10 then 0 else nlog10 fuel (n / 10) + 1

def natLog10 (n : Nat) : Nat := nlog10 n n

/-- Floor of log10 of the absolute value of a nonzero rational. -/
def ratLog10 (x : ℚ) : ℤ :=
  let a : ℤ := natLog10 x.num.natAbs
  let b : ℤ := natLog10 x.den
  if (10 : ℚ) ^ (a - b) ≤ |x| then a - b else a - b - 1

/-- Rounding of an exact rational to p significant decimal digits, with
round-half-even: the model of a decimal.Decimal arithmetic result under
getcontext().prec = p. -/
def decRound (p : Nat) (x : ℚ) : ℚ :=
  if x = 0 then 0
  else
    let s : ℤ := (p : ℤ) - 1 - ratLog10 x
    (roundHE (x * (10 : ℚ) ^ s) : ℚ) * (10 : ℚ) ^ (-s)

/-! ## A01 formatting (lines 281-301) -/

def digitChar (n : Nat) : Char := Char.ofNat ('0'.toNat + n % 10)

def natDigits : Nat → Nat → List Char
  | 0, _ => []
  | _ + 1, n =>
    if n < 10 then [digitChar n]
    else natDigits n (n / 10) ++ [digitChar (n % 10)]

/-- Decimal rendering of a natural number. -/
def natToStr (n : Nat) : String := String.mk (natDigits (n + 1) n)

/-- f"{q:.{dp}f}": fixed-point formatting with dp fractional digits,
round-half-even on the scaled value. -/
def formatFixed (q : ℚ) (dp : Nat) : String :=
  let m := (roundHE (|q| * (10 : ℚ) ^ dp)).toNat
  let sign := if q < 0 then "-" else ""
  if dp = 0 then sign ++ natToStr m
  else
    let fracDigits := natToStr (m % 10 ^ dp)
    let pad := String.mk (List.replicate (dp - fracDigits.length) '0')
    sign ++ natToStr (m / 10 ^ dp) ++ "." ++ pad ++ fracDigits

def rstripZeros (cs : List Char) : List Char := (cs.reverse.dropWhile (fun c => c = '0')).reverse

/-- A01 fmt_amount.  The division by 10^decimals happens in a Decimal
context with prec = 50, then the value is formatted with max_dp
fractional digits, trailing zeros trimmed and padded back to min_dp. -/
def fmt_amount (value_wei : Int) (decimals : Nat) (min_dp : Nat := 2) (max_dp : Nat := 12) :
    String :=
  if value_wei = 0 then
    if min_dp = 0 then "0" else "0." ++ String.mk (List.replicate min_dp '0')
  else
    let q := decRound 50 ((value_wei : ℚ) / (10 : ℚ) ^ (decimals : ℕ))
    let s := formatFixed q max_dp
    let parts := s.data
    let whole := parts.takeWhile (fun c => c ≠ '.')
    let frac := (parts.dropWhile (fun c => c ≠ '.')).drop 1
    let trimmed0 := rstripZeros frac
    let trimmed :=
      if trimmed0.length < min_dp then (trimmed0 ++ List.replicate min_dp '0').take min_dp
      else trimmed0
    if trimmed = [] then String.mk whole
    else String.mk whole ++ "." ++ String.mk trimmed

def format_token_display_signed (delta_wei : Int) (decimals : Nat) (symbol : String) : String :=
  (if delta_wei < 0 then "-" else "+") ++ fmt_amount (Int.natAbs delta_wei) decimals ++ " " ++ symbol

def format_nft_signed (symbol_or_name : String) (token_id : Nat) (qty : Int) : String :=
  let sign := if qty < 0 then "-" else "+"
  let label := symbol_or_name ++ "#" ++ natToStr token_id
  if qty.natAbs = 1 then sign ++ label
  else sign ++ label ++ " x " ++ natToStr qty.natAbs

def wei_str_eth (wei : Int) : String := fmt_amount wei 18 5 8

/-! ## Stringify (A01 lines 432-456).

Token metadata lookups (to_checksum_address, erc20_symbol, erc20_decimals,
token_name) are network-and-cache backed; they are passed in as total
oracle functions keyed by the lowercase contract address. -/

def joinSep (sep : String) : List String → String
  | [] => ""
  | [s] => s
  | s :: rest => s ++ sep ++ joinSep sep rest

def build_ft_items (erc20_eth : List (String × Int))
    (symOf : String → String) (decOf : String → Nat) : List String × List String :=
  erc20_eth.foldl (fun acc kv =>
    if kv.2 = 0 then acc
    else
      let s := if kv.1 = "eth" then format_token_display_signed kv.2 18 "ETH"
               else format_token_display_signed kv.2 (decOf kv.1) (symOf kv.1)
      if kv.2 < 0 then (acc.1 ++ [s], acc.2) else (acc.1, acc.2 ++ [s])) ([], [])

def build_ft_strings (erc20_eth : List (String × Int))
    (symOf : String → String) (decOf : String → Nat) : String × String :=
  let items := build_ft_items erc20_eth symOf decOf
  (joinSep "; " items.1, joinSep "; " items.2)

def build_nft_field (nft_moves : List (String × Nat × Int)) (nameOf : String → String) : String :=
  if nft_moves = [] then ""
  else joinSep "; " (nft_moves.map (fun m => format_nft_signed (nameOf m.1) m.2.1 m.2.2))

/-! ## decode_one_from_row (A01 lines 488-559) -/

structure OutRow where
  tx_hash : String
  tx_timestamp : String
  block_time : Int
  type : String
  from_address : String
  to_address : String
  amount_sent : String
  amount_received : String
  total_gas_eth : String
  nft_transfere : String
  failed : Bool
  deriving DecidableEq

/-- Chain and formatting context of decode_one_from_row, passed in as data:
local-time rendering of a unix timestamp, the two block-header timestamp
lookups of the timestamp fallback, the checksum function for addresses
and the token-metadata oracles. -/
structure DecodeOracle where
  fmtTs : Int → String
  blockTsByHash : Option Nat
  blockTsByNumber : Option Nat
  checksum : String → String
  symOf : String → String
  decOf : String → Nat
  nameOf : String → String
  chain : ChainOracle

/-- A01 decode_address: shape check then to_checksum_address. -/
def decode_address (checksum : String → String) (addr : String) : String :=
  let s := trimStr addr
  match s.data with
  | '0' :: 'x' :: rest =>
    if rest.length = 40 ∧ rest.all isHexCharB then checksum s else ""
  | _ => ""

def decode_one (wallet : String) (row : RowTx) (alreadyKnown : List String)
    (rcptOpt : Option Receipt) (o : DecodeOracle) : Except Unit (Option OutRow) :=
  let txh := row.hash
  if txh = "" ∨ txh ∈ alreadyKnown then .ok none
  else
    let from_addr := decode_address o.checksum row.fromAddr
    let to_addr := decode_address o.checksum row.toAddr
    match rcptOpt with
    | none => .ok none
    | some rcpt =>
      let statusHex := toLowerStr rcpt.status
      let isFailed := statusHex = "0x0"
      let ts1 : Int := (parseDecInt (if row.timeStamp = "" then "0" else row.timeStamp)).getD 0
      let ts2 : Int :=
        if ts1 = 0 then
          let viaHash : Int :=
            if row.blockHash ≠ "" then ((o.blockTsByHash.map (Int.ofNat)).getD 0) else 0
          if viaHash = 0 then
            if row.blockNumber ≠ "" then ((o.blockTsByNumber.map (Int.ofNat)).getD 0) else 0
          else viaHash
        else ts1
      let tsIso := if ts2 ≠ 0 then o.fmtTs ts2 else ""
      match h2i rcpt.gasUsed with
      | .error e => .error e
      | .ok gasUsed =>
        match h2i rcpt.effectiveGasPrice with
        | .error e => .error e
        | .ok effP0 =>
          match (if effP0 ≠ 0 then some (effP0 : Int)
                 else parseDecInt (if row.gasPrice = "" then "0" else row.gasPrice)) with
          | none => .error ()
          | some effPrice =>
            let totalGas :=
              if gasUsed ≠ 0 ∧ effPrice ≠ 0 then wei_str_eth ((gasUsed : Int) * effPrice)
              else fmt_amount 0 18 5 8
            if isFailed then
              .ok (some {
                tx_hash := txh, tx_timestamp := tsIso, block_time := ts2,
                type := "failed", from_address := from_addr, to_address := to_addr,
                amount_sent := "", amount_received := "", total_gas_eth := totalGas,
                nft_transfere := "", failed := true })
            else
              match compute_wallet_deltas row rcpt wallet o.chain with
              | .error e => .error e
              | .ok (erc20_eth, nft_moves) =>
                let actionType := (classify_from_topics rcpt.logs).getD
                  (classify_from_balances erc20_eth)
                let amounts := build_ft_strings erc20_eth o.symOf o.decOf
                let nftField := build_nft_field nft_moves o.nameOf
                .ok (some {
                  tx_hash := txh, tx_timestamp := tsIso, block_time := ts2,
                  type := actionType, from_address := from_addr, to_address := to_addr,
                  amount_sent := amounts.1, amount_received := amounts.2,
                  total_gas_eth := totalGas, nft_transfere := nftField, failed := false })

/-! ## A02: BlockFinder (lines 124-186).

The chain is modelled as a fixed latest block number and a timestamp
function on block numbers; eth_getBlock(n).timestamp is ts n, and both
self.w3.eth.block_number and the memoized self._latest_num are latest. -/

structure BChain where
  latest : Nat
  ts : Nat → Nat

/-- The _cache_by_minute dict: minute key to resolved block number. -/
def cacheLookup (cache : List (Nat × Nat)) (key : Nat) : Option Nat :=
  (cache.find? (fun kv => kv.1 = key)).map Prod.snd

def cacheInsert (cache : List (Nat × Nat)) (key v : Nat) : List (Nat × Nat) :=
  match cache with
  | [] => [(key, v)]
  | kv :: rest => if kv.1 = key then (key, v) :: rest else kv :: cacheInsert rest key v

/-- The while-loop of BlockFinder._binary_search.  Python integers are
signed, so the loop bounds are Int. -/
def binarySearchLoop (c : BChain) (target : Nat) (low high : Int) : Nat :=
  if h : low ≤ high then
    if target < c.ts ((low + high) / 2).toNat then
      binarySearchLoop c target low ((low + high) / 2 - 1)
    else if target < c.ts (min ((low + high) / 2 + 1) (c.latest : Int)).toNat then
      ((low + high) / 2).toNat
    else binarySearchLoop c target ((low + high) / 2 + 1) high
  else (max 1 high).toNat
termination_by (high + 1 - low).toNat
decreasing_by
  all_goals omega

/-- BlockFinder._binary_search. -/
def binary_search (c : BChain) (target : Nat) : Nat :=
  if c.ts c.latest ≤ target then c.latest else binarySearchLoop c target 1 (c.latest : Int)

/-- The bounded forward scan of the hint path: returns the final probed
block number cur; the loop advances while ts(cur) ≤ target, cur < latest
and fewer than the step limit of probes were made. -/
def hintScan (c : BChain) (target : Nat) : Nat → Nat → Nat
  | cur, 0 => cur
  | cur, rem + 1 =>
    if c.ts cur ≤ target ∧ cur < c.latest then hintScan c target (cur + 1) rem else cur

/-- BlockFinder.find_before without the cache-hit shortcut. -/
def find_before_core (c : BChain) (cache : List (Nat × Nat)) (target : Nat)
    (hint : Option Nat) (limit : Nat) : Nat × List (Nat × Nat) :=
  let key := target / 60 * 60
  let hintVal := (hint.getD 0)
  if hintVal ≠ 0 then
    let cur0 := max 1 hintVal
    let fin := hintScan c target cur0 limit
    if target < c.ts fin then
      let ans := max 1 (fin - 1)
      (ans, cacheInsert cache key ans)
    else
      let ans := binary_search c target
      (ans, cacheInsert cache key ans)
  else
    let ans := binary_search c target
    (ans, cacheInsert cache key ans)

/-- BlockFinder.find_before (A02 lines 165-186): minute-bucket cache hit
(a stored 0 is falsy and ignored), else hint scan, else binary search. -/
def find_before (c : BChain) (cache : List (Nat × Nat)) (target : Nat)
    (hint : Option Nat) (limit : Nat := 64) : Nat × List (Nat × Nat) :=
  let key := target / 60 * 60
  match cacheLookup cache key with
  | some v => if v ≠ 0 then (v, cache) else find_before_core c cache target hint limit
  | none => find_before_core c cache target hint limit

/-! ## A02: price oracle (lines 70-88, 189-209).

All Decimal arithmetic in A02 runs under getcontext().prec = 60; each
arithmetic operation result is modelled with decRound 60. -/

def Q96 : ℚ := (2 : ℚ) ^ (96 : ℕ)

/-- A02 price_from_sqrtPriceX96: (sp * sp) / (Q96 * Q96) in Decimal. -/
def price_from_sqrtPriceX96 (sqrtPriceX96 : Nat) : ℚ :=
  decRound 60 (decRound 60 ((sqrtPriceX96 : ℚ) * (sqrtPriceX96 : ℚ)) / decRound 60 (Q96 * Q96))

/-- Decimal(10) ** Decimal(k) under prec = 60. -/
def decPow10 (k : ℤ) : ℚ := decRound 60 ((10 : ℚ) ^ k)

/-- A02 get_ratios_at_block, v3 branch, for token decimals d0 and d1:
returns (eth_per_wbtc, wbtc_per_eth), i.e. (ratio of token1 per token0
adjusted by 10^(d0 - d1), its reciprocal). -/
def get_ratios_v3 (sqrtPriceX96 : Nat) (d0 d1 : ℤ) : ℚ × ℚ :=
  let price1per0 := price_from_sqrtPriceX96 sqrtPriceX96
  let adj := decPow10 (d0 - d1)
  let eth_per_wbtc := decRound 60 (price1per0 * adj)
  let wbtc_per_eth := decRound 60 (1 / eth_per_wbtc)
  (eth_per_wbtc, wbtc_per_eth)

/-! ## Output columns (A01 lines 623-625, A02 lines 212-224) -/

/-- The fieldnames list of A01 main's csv.DictWriter. -/
def a01_cols : List String :=
  ["tx_hash", "tx_timestamp", "block_time", "type",
   "from_address", "to_address",
   "amount_sent", "amount_received", "total_gas_eth", "nft_transfere"]

def INPUT_FIELDS : List String :=
  ["tx_hash", "tx_timestamp", "block_time", "type", "from_address", "to_address",
   "amount_sent", "amount_received", "total_gas_eth", "nft_transfere"]

def OUTPUT_FIELDS : List String := INPUT_FIELDS ++ ["weth_per_wbtc", "wbtc_per_weth"]

/-- Modelled from the spec: the output ledger row column list as the
serialization contract in section 6 of the spec spells it. -/
def specLedgerColumns : List String :=
  ["tx_hash", "tx_timestamp", "block_time", "type",
   "from_address", "to_address",
   "amount_sent", "amount_received", "total_gas_eth", "nft_transfer"]

deriving instance DecidableEq for Except

/-! ## Concrete fixtures used by witnesses and counterexamples -/

/-- Left-pad a hex string to one 64-character topic word. -/
def pad64 (s : String) : String := String.mk (List.replicate (64 - s.length) '0') ++ s

def exWallet : String := "0xaaaaaaaaaaaaaaaaaaaaaaaaaaaaaaaaaaaaaaaa"
def exWalletTopic : String := pad64 "aaaaaaaaaaaaaaaaaaaaaaaaaaaaaaaaaaaaaaaa"
def exOtherTopic : String := pad64 "bbbbbbbbbbbbbbbbbbbbbbbbbbbbbbbbbbbbbbbb"
def exNftContract : String := "0xcccccccccccccccccccccccccccccccccccccccc"
def exOracle : ChainOracle := ⟨[], none, "0x0", "0x0"⟩

/-- ABI encoding of ids = [7, 9], values = [3, 4]. -/
def exBatchData : String :=
  "0x" ++ pad64 "40" ++ pad64 "a0" ++ pad64 "2" ++ pad64 "7" ++ pad64 "9"
       ++ pad64 "2" ++ pad64 "3" ++ pad64 "4"

/-- ABI encoding of ids = [7, 9], values = [0, 4]. -/
def exZeroBatchData : String :=
  "0x" ++ pad64 "40" ++ pad64 "a0" ++ pad64 "2" ++ pad64 "7" ++ pad64 "9"
       ++ pad64 "2" ++ pad64 "0" ++ pad64 "4"


/-- Raw-transaction row used by the C1 counterexample. -/
def exRowA : RowTx :=
  ⟨"0xabc", "0xbbbbbbbbbbbbbbbbbbbbbbbbbbbbbbbbbbbbbbbb", exWallet,
   "0", "5", "0xbh", "1700000000", "7"⟩

/-- A WETH Deposit log whose data payload is not valid hex. -/
def exBadDepositLog : LogEntry := ⟨"0xweth", [TOPIC_WETH_DEPOSIT, exWalletTopic], some "0xzz"⟩

def exBadRcpt : Receipt := ⟨"0x1", some "0x5208", some "0x3b9aca00", [exBadDepositLog]⟩


/-- ABI encoding of ids = [7, 9], values = [9, 4] with mismatched lengths:
ids = [7, 9], values = [4]. -/
def exMismatchData : String :=
  "0x" ++ pad64 "40" ++ pad64 "a0" ++ pad64 "2" ++ pad64 "7" ++ pad64 "9"
       ++ pad64 "1" ++ pad64 "4"

/-- ERC-1155 batch log with the wallet as sender and a zero first value. -/
def exZeroBatchLog : LogEntry :=
  ⟨exNftContract, [TOPIC_TRANSFER_BATCH, "t", exWalletTopic, exOtherTopic], some exZeroBatchData⟩


/-- ERC-1155 batch log with the wallet as recipient and a zero first value. -/
def exZeroBatchLogTo : LogEntry :=
  ⟨exNftContract, [TOPIC_TRANSFER_BATCH, "t", exOtherTopic, exWalletTopic], some exZeroBatchData⟩

/-- An ERC-721 transfer of token id 5 to the wallet. -/
def ex721Log : LogEntry :=
  ⟨exNftContract, [TOPIC_TRANSFER, exOtherTopic, exWalletTopic, pad64 "5"], some "0x"⟩

def exRowB : RowTx :=
  ⟨"0xdef", "0xbbbbbbbbbbbbbbbbbbbbbbbbbbbbbbbbbbbbbbbb",
   "0xbbbbbbbbbbbbbbbbbbbbbbbbbbbbbbbbbbbbbbbb", "0", "7", "0xbh", "1700000300", "7"⟩

def exRcptB : Receipt := ⟨"0x1", some "0x5208", some "0x3b9aca00", [ex721Log]⟩


/-- Scenario A row: the wallet receives 1.5 native units. -/
def scenRow : RowTx :=
  ⟨"0xscen", "0xbbbbbbbbbbbbbbbbbbbbbbbbbbbbbbbbbbbbbbbb", exWallet,
   "1500000000000000000", "9", "0xbh", "1700000100", "7"⟩

/-- Scenario A receipt: successful, no logs. -/
def scenRcpt : Receipt := ⟨"0x1", some "0x5208", some "0x3b9aca00", []⟩


/-- The display string build_ft_strings computes for one dict entry. -/
def ftEntryFmt (symOf : String → String) (decOf : String → Nat) (kv : String × Int) : String :=
  if kv.1 = "eth" then format_token_display_signed kv.2 18 "ETH"
  else format_token_display_signed kv.2 (decOf kv.1) (symOf kv.1)

def exSymOf : String → String := fun _ => "TOK"
def exDecOf : String → Nat := fun _ => 6


/-- A failed-transaction row and receipt; the receipt still carries a
malformed log entry. -/
def exFailRow : RowTx :=
  ⟨"0xfail", "0xbbbbbbbbbbbbbbbbbbbbbbbbbbbbbbbbbbbbbbbb", exWallet,
   "0", "5", "0xbh", "1700000200", "7"⟩

def exFailRcpt : Receipt := ⟨"0x0", some "0x5208", some "0x3b9aca00", [exBadDepositLog]⟩

def exDecOracle : DecodeOracle :=
  ⟨fun _ => "TS", none, none, fun s => s, exSymOf, exDecOf, exSymOf, exOracle⟩


/-- Chain with timestamps 10, 100, 200 for blocks 1, 2, 3. -/
def cexChainA : BChain := ⟨3, fun n => if n ≤ 1 then 10 else if n = 2 then 100 else 200⟩

/-- Chain with timestamps 10, 500, 1000 for blocks 1, 2, 3. -/
def cexChainB : BChain := ⟨3, fun n => if n ≤ 1 then 10 else if n = 2 then 500 else 1000⟩

/-- Chain with timestamps 10 k for block k, latest 5. -/
def wChainA : BChain := ⟨5, fun n => n * 10⟩

/-- Chain with timestamps 100 k for block k, latest 4. -/
def wChainB : BChain := ⟨4, fun n => n * 100⟩

-- MARKER_DEFS_END

/-! # Theorems -/

-- MARKER_THEOREMS
theorem findGreatest_spec_explicit (P : Nat → Prop) [DecidablePred P] (m n : Nat)
    (hmb : m ≤ n) (hm : P m) : P (Nat.findGreatest P n) :=
  Nat.findGreatest_spec hmb hm

/-- The while-loop of _binary_search returns the greatest block A whose
timestamp is at or before the target, whenever A lies in [low, high]. -/
theorem binarySearchLoop_eq (c : BChain) (target A : Nat)
    (hmono : ∀ i j, i ≤ j → j ≤ c.latest → c.ts i ≤ c.ts j)
    (hA1 : 1 ≤ A) (hAlt : A < c.latest)
    (hAts : c.ts A ≤ target) (hnext : target < c.ts (A + 1)) :
    ∀ n (low high : Int), (high + 1 - low).toNat ≤ n →
      (0 : Int) < low → low ≤ A → (A : Int) ≤ high → high ≤ (c.latest : Int) →
      binarySearchLoop c target low high = A := by
  intro n
  induction n with
  | zero =>
    intro low high hm h0 hlo hhi hlat
    omega
  | succ n ih =>
    intro low high hm h0 hlo hhi hlat
    have hlh : low ≤ high := le_trans hlo hhi
    rw [binarySearchLoop, dif_pos hlh]
    have hmid1 : low ≤ (low + high) / 2 := by omega
    have hmid2 : (low + high) / 2 ≤ high := by omega
    have hmidnn : (0 : Int) ≤ (low + high) / 2 := by omega
    have hmidlat : ((low + high) / 2).toNat ≤ c.latest := by omega
    split
    case isTrue hts =>
      have hAmid : (A : Int) < (low + high) / 2 := by
        by_contra hcon
        push_neg at hcon
        have hmA : ((low + high) / 2).toNat ≤ A := by omega
        have := hmono ((low + high) / 2).toNat A hmA (by omega)
        omega
      exact ih low ((low + high) / 2 - 1) (by omega) h0 hlo (by omega) (by omega)
    case isFalse hts =>
      push_neg at hts
      have hmidA : (low + high) / 2 ≤ (A : Int) := by
        by_contra hcon
        push_neg at hcon
        have hA1m : A + 1 ≤ ((low + high) / 2).toNat := by omega
        have := hmono (A + 1) ((low + high) / 2).toNat hA1m hmidlat
        omega
      have hminlat : min ((low + high) / 2 + 1) ((c.latest : Int)) = (low + high) / 2 + 1 := by
        omega
      rw [hminlat]
      split
      case isTrue hts2 =>
        have hle : (A : Int) ≤ (low + high) / 2 := by
          by_contra hcon
          push_neg at hcon
          have hm1 : ((low + high) / 2 + 1).toNat ≤ A := by omega
          have := hmono ((low + high) / 2 + 1).toNat A hm1 (by omega)
          omega
        omega
      case isFalse hts2 =>
        push_neg at hts2
        have hstep : (low + high) / 2 + 1 ≤ (A : Int) := by
          by_contra hcon
          push_neg at hcon
          have heq : ((low + high) / 2 + 1).toNat = A + 1 := by omega
          rw [heq] at hts2
          omega
        exact ih ((low + high) / 2 + 1) high (by omega) (by omega) hstep hhi hlat

/-- BlockFinder._binary_search returns the largest block number whose
timestamp is at or before the target, for a monotone chain that has at
least one such block. -/
theorem binary_search_exact (c : BChain) (target : Nat)
    (hmono : ∀ i j, i ≤ j → j ≤ c.latest → c.ts i ≤ c.ts j)
    (h1 : 1 ≤ c.latest)
    (hex : ∃ b, 1 ≤ b ∧ b ≤ c.latest ∧ c.ts b ≤ target) :
    1 ≤ binary_search c target ∧ binary_search c target ≤ c.latest
    ∧ c.ts (binary_search c target) ≤ target
    ∧ ∀ b, b ≤ c.latest → c.ts b ≤ target → b ≤ binary_search c target := by
  rcases hex with ⟨b0, hb1, hbl, hbts⟩
  unfold binary_search
  split
  case isTrue hlatest =>
    exact ⟨h1, le_refl _, hlatest, fun b hbl2 _ => hbl2⟩
  case isFalse hlatest =>
    push_neg at hlatest
    set A := Nat.findGreatest (fun b => c.ts b ≤ target) c.latest with hAdef
    have hA0 : b0 ≤ Nat.findGreatest (fun b => c.ts b ≤ target) c.latest :=
      Nat.le_findGreatest hbl hbts
    have hA1 : 1 ≤ A := le_trans hb1 hA0
    have hAle : A ≤ c.latest := Nat.findGreatest_le c.latest
    have hAts : c.ts A ≤ target :=
      findGreatest_spec_explicit (fun b => c.ts b ≤ target) b0 c.latest hbl hbts
    have hmax : ∀ b, b ≤ c.latest → c.ts b ≤ target → b ≤ A := by
      intro b hb hbt
      exact Nat.le_findGreatest hb hbt
    have hAlt : A < c.latest := by
      rcases Nat.lt_or_ge A c.latest with h | h
      · exact h
      · exfalso
        have heq : A = c.latest := le_antisymm hAle h
        rw [heq] at hAts
        omega
    have hnext : target < c.ts (A + 1) := by
      by_contra hcon
      push_neg at hcon
      rcases Nat.lt_or_ge (A + 1) (c.latest + 1) with h | h
      · have := hmax (A + 1) (by omega) hcon
        omega
      · have heq : c.latest = A := by omega
        omega
    have hrun := binarySearchLoop_eq c target A hmono hA1 hAlt hAts hnext
      ((c.latest : Int) + 1 - 1).toNat 1 (c.latest : Int) (by omega) (by omega)
      (by exact_mod_cast hA1) (by exact_mod_cast hAle) (le_refl _)
    rw [hrun]
    exact ⟨hA1, hAle, hAts, hmax⟩

/-- On a minute-bucket cache miss with no hint, find_before is exactly the
binary search. -/
theorem find_before_nocache (c : BChain) (cache : List (Nat × Nat)) (target limit : Nat)
    (hmiss : cacheLookup cache (target / 60 * 60) = none) :
    (find_before c cache target none limit).1 = binary_search c target := by
  simp [find_before, find_before_core, hmiss]

theorem find_before_exact (c : BChain) (cache : List (Nat × Nat)) (target limit : Nat)
    (hmono : ∀ i j, i ≤ j → j ≤ c.latest → c.ts i ≤ c.ts j)
    (h1 : 1 ≤ c.latest)
    (hex : ∃ b, 1 ≤ b ∧ b ≤ c.latest ∧ c.ts b ≤ target)
    (hmiss : cacheLookup cache (target / 60 * 60) = none) :
    1 ≤ (find_before c cache target none limit).1
    ∧ (find_before c cache target none limit).1 ≤ c.latest
    ∧ c.ts (find_before c cache target none limit).1 ≤ target
    ∧ ∀ b, b ≤ c.latest → c.ts b ≤ target → b ≤ (find_before c cache target none limit).1 := by
  rw [find_before_nocache c cache target limit hmiss]
  exact binary_search_exact c target hmono h1 hex

/-- Claim C2 counterexample: resolving 60 via the hint path caches block 1
under minute bucket 60; the later call for timestamp 119 hits that bucket
and returns block 1, although block 2 (timestamp 100) is the largest block
at or before 119 - the cache answer also violates the boundary property,
since the next block's timestamp is still at or before 119. -/
theorem TB_C2_counterexample :
    (find_before cexChainA [] 60 (some 1) 64).1 = 1
    ∧ (find_before cexChainA [] 60 (some 1) 64).2 = [(60, 1)]
    ∧ (find_before cexChainA (find_before cexChainA [] 60 (some 1) 64).2 119 none 64).1 = 1
    ∧ cexChainA.ts 2 ≤ 119 ∧ 2 ≤ cexChainA.latest ∧ ¬(2 ≤ 1)
    ∧ cexChainA.ts ((find_before cexChainA (find_before cexChainA [] 60 (some 1) 64).2
        119 none 64).1 + 1) ≤ 119 := by
  decide

/-- Claim C2 (amended): on a minute-bucket cache miss with no hint block -
the binary-search path - find_before returns the largest block number whose
timestamp is at or before the target, for every monotone chain having such
a block.  (A cache hit can return the answer of a different timestamp in
the same minute bucket, and an overshooting hint block can return a block
that is too large, as the counterexample shows.) -/
theorem TB_C2_amended (c : BChain) (cache : List (Nat × Nat)) (target limit : Nat)
    (hmono : ∀ i j, i ≤ j → j ≤ c.latest → c.ts i ≤ c.ts j)
    (h1 : 1 ≤ c.latest)
    (hex : ∃ b, 1 ≤ b ∧ b ≤ c.latest ∧ c.ts b ≤ target)
    (hmiss : cacheLookup cache (target / 60 * 60) = none) :
    1 ≤ (find_before c cache target none limit).1
    ∧ (find_before c cache target none limit).1 ≤ c.latest
    ∧ c.ts (find_before c cache target none limit).1 ≤ target
    ∧ ∀ b, b ≤ c.latest → c.ts b ≤ target → b ≤ (find_before c cache target none limit).1 :=
  find_before_exact c cache target limit hmono h1 hex hmiss

/-- Claim C2 witness: the amended theorem applied to a concrete five-block
chain with timestamps 10,20,30,40,50 at target 27. -/
theorem TB_C2_witness :
    1 ≤ (find_before wChainA [] 27 none 64).1
    ∧ (find_before wChainA [] 27 none 64).1 ≤ wChainA.latest
    ∧ wChainA.ts (find_before wChainA [] 27 none 64).1 ≤ 27
    ∧ ∀ b, b ≤ wChainA.latest → wChainA.ts b ≤ 27 → b ≤ (find_before wChainA [] 27 none 64).1 :=
  TB_C2_amended wChainA [] 27 64
    (by intro i j hij hj; simp [wChainA]; omega)
    (by decide) ⟨1, by decide, by decide, by decide⟩ (by decide)

/-- Claim C6 counterexample: a resolution sequence where each hint block is
the previous call's answer violates monotonicity: timestamp 15 resolves to
block 2 (the overshooting hint path) while the later timestamp 70 resolves
to block 1, so t1 < t2 with resolveBlock(t1) > resolveBlock(t2). -/
theorem TB_C6_counterexample :
    (find_before cexChainB [] 1000 none 64).1 = 3
    ∧ (find_before cexChainB (find_before cexChainB [] 1000 none 64).2 15 (some 3) 64).1 = 2
    ∧ (find_before cexChainB
        (find_before cexChainB (find_before cexChainB [] 1000 none 64).2 15 (some 3) 64).2
        70 (some 2) 64).1 = 1
    ∧ (15 : Nat) < 70 ∧ ¬((2 : Nat) ≤ 1) := by
  decide

/-- Claim C6 (amended): the resolver is monotonic across calls whose answers
come from the binary-search path (minute-bucket cache misses, no hint
block): t1 < t2 implies resolveBlock(t1) is at most resolveBlock(t2).
(With a stale cache hit or an overshooting hint block monotonicity fails,
as the counterexample shows.) -/
theorem TB_C6_amended (c : BChain) (cache1 cache2 : List (Nat × Nat))
    (t1 t2 limit1 limit2 : Nat)
    (hmono : ∀ i j, i ≤ j → j ≤ c.latest → c.ts i ≤ c.ts j)
    (h1 : 1 ≤ c.latest)
    (hex : ∃ b, 1 ≤ b ∧ b ≤ c.latest ∧ c.ts b ≤ t1)
    (ht : t1 < t2)
    (hm1 : cacheLookup cache1 (t1 / 60 * 60) = none)
    (hm2 : cacheLookup cache2 (t2 / 60 * 60) = none) :
    (find_before c cache1 t1 none limit1).1 ≤ (find_before c cache2 t2 none limit2).1 := by
  have e1 := find_before_exact c cache1 t1 limit1 hmono h1 hex hm1
  have hex2 : ∃ b, 1 ≤ b ∧ b ≤ c.latest ∧ c.ts b ≤ t2 := by
    rcases hex with ⟨b0, hb1, hbl, hbts⟩
    exact ⟨b0, hb1, hbl, by omega⟩
  have e2 := find_before_exact c cache2 t2 limit2 hmono h1 hex2 hm2
  exact e2.2.2.2 _ e1.2.1 (by have := e1.2.2.1; omega)

/-- Claim C6 witness: the amended monotonicity applied to a concrete chain
with timestamps 100,200,300,400 at targets 150 < 250. -/
theorem TB_C6_witness :
    (find_before wChainB [] 150 none 64).1 ≤ (find_before wChainB [] 250 none 64).1 :=
  TB_C6_amended wChainB [] [] 150 250 64 64
    (by intro i j hij hj; simp [wChainB]; omega)
    (by decide) ⟨1, by decide, by decide, by decide⟩ (by decide) (by decide) (by decide)

/-- Claim C5: for every transaction whose receipt status is "0x0" (failed),
decode_one_from_row produces exactly one output row with type "failed",
empty sent/received/NFT fields and the gas field computed from
gasUsed times effectiveGasPrice, for any log list in the receipt
(no log interpretation happens, so even malformed logs cannot raise).
The hypotheses only say the receipt and row carry well-formed numeric
gas fields, as the chain client and the upstream fetch guarantee. -/
theorem TB_C5 (wallet : String) (row : RowTx) (already : List String) (rcpt : Receipt)
    (o : DecodeOracle) (g p : Nat) (eff : Int)
    (hhash : row.hash ≠ "") (hnew : row.hash ∉ already)
    (hfail : toLowerStr rcpt.status = "0x0")
    (hg : h2i rcpt.gasUsed = .ok g)
    (hp : h2i rcpt.effectiveGasPrice = .ok p)
    (heff : (if p ≠ 0 then some (p : Int)
             else parseDecInt (if row.gasPrice = "" then "0" else row.gasPrice)) = some eff) :
    ∃ ts tsStr, decode_one wallet row already (some rcpt) o = .ok (some
      { tx_hash := row.hash, tx_timestamp := tsStr, block_time := ts,
        type := "failed",
        from_address := decode_address o.checksum row.fromAddr,
        to_address := decode_address o.checksum row.toAddr,
        amount_sent := "", amount_received := "",
        total_gas_eth := if g ≠ 0 ∧ eff ≠ 0 then wei_str_eth ((g : Int) * eff)
                         else fmt_amount 0 18 5 8,
        nft_transfere := "", failed := true }) := by
  unfold decode_one
  rw [if_neg (by push_neg; exact ⟨hhash, hnew⟩)]
  dsimp only
  rw [hg, hp]
  dsimp only
  rw [heff]
  dsimp only
  rw [hfail]
  rw [if_pos rfl]
  exact ⟨_, _, rfl⟩

/-- Claim C5 witness: the failed-transaction theorem applied at a concrete
failed receipt whose log list contains a malformed log. -/
theorem TB_C5_witness :
    ∃ ts tsStr, decode_one exWallet exFailRow [] (some exFailRcpt) exDecOracle = .ok (some
      { tx_hash := exFailRow.hash, tx_timestamp := tsStr, block_time := ts,
        type := "failed",
        from_address := decode_address exDecOracle.checksum exFailRow.fromAddr,
        to_address := decode_address exDecOracle.checksum exFailRow.toAddr,
        amount_sent := "", amount_received := "",
        total_gas_eth := if (21000 : Nat) ≠ 0 ∧ (1000000000 : Int) ≠ 0 then
            wei_str_eth (((21000 : Nat) : Int) * 1000000000)
          else fmt_amount 0 18 5 8,
        nft_transfere := "", failed := true }) :=
  TB_C5 exWallet exFailRow [] exFailRcpt exDecOracle 21000 1000000000 1000000000
    (by decide) (by decide) (by decide) (by decide) (by decide) (by decide)

theorem build_ft_items_go (symOf : String → String) (decOf : String → Nat) :
    ∀ (l : List (String × Int)) (acc : List String × List String),
      l.foldl (fun acc kv =>
        if kv.2 = 0 then acc
        else
          let s := if kv.1 = "eth" then format_token_display_signed kv.2 18 "ETH"
                   else format_token_display_signed kv.2 (decOf kv.1) (symOf kv.1)
          if kv.2 < 0 then (acc.1 ++ [s], acc.2) else (acc.1, acc.2 ++ [s])) acc
      = (acc.1 ++ (l.filter (fun kv => decide (kv.2 < 0))).map (ftEntryFmt symOf decOf),
         acc.2 ++ (l.filter (fun kv => decide (0 < kv.2))).map (ftEntryFmt symOf decOf)) := by
  intro l
  induction l with
  | nil => intro acc; simp
  | cons kv rest ih =>
    intro acc
    rcases lt_trichotomy kv.2 0 with hlt | heq | hgt
    · have h1 : ¬kv.2 = 0 := by omega
      have h2 : ¬(0 < kv.2) := by omega
      simp only [List.foldl_cons, List.filter_cons, if_neg h1, if_pos hlt, ih,
        decide_eq_true hlt]
      simp [ftEntryFmt, h2, List.append_assoc]
    · simp only [List.foldl_cons, List.filter_cons, if_pos heq, ih]
      simp [heq]
    · have h1 : ¬kv.2 = 0 := by omega
      have h2 : ¬(kv.2 < 0) := by omega
      simp only [List.foldl_cons, List.filter_cons, if_neg h1, if_neg h2, ih,
        decide_eq_true hgt]
      simp [ftEntryFmt, h2, List.append_assoc]

/-- Claim C10: amount_sent items are exactly the formatted strictly negative
deltas and amount_received items exactly the formatted strictly positive
deltas, in dict order; zero deltas appear in neither; every sent entry
begins with "-" and every received entry begins with "+". -/
theorem TB_C10 :
    ∀ (deltas : List (String × Int)) (symOf : String → String) (decOf : String → Nat),
      (build_ft_items deltas symOf decOf).1
        = (deltas.filter (fun kv => decide (kv.2 < 0))).map (ftEntryFmt symOf decOf)
      ∧ (build_ft_items deltas symOf decOf).2
        = (deltas.filter (fun kv => decide (0 < kv.2))).map (ftEntryFmt symOf decOf)
      ∧ (∀ s ∈ (build_ft_items deltas symOf decOf).1, ∃ r, s = "-" ++ r)
      ∧ (∀ s ∈ (build_ft_items deltas symOf decOf).2, ∃ r, s = "+" ++ r) := by
  intro deltas symOf decOf
  have hgo := build_ft_items_go symOf decOf deltas ([], [])
  have h1 : (build_ft_items deltas symOf decOf).1
      = (deltas.filter (fun kv => decide (kv.2 < 0))).map (ftEntryFmt symOf decOf) := by
    unfold build_ft_items
    rw [hgo]
    simp
  have h2 : (build_ft_items deltas symOf decOf).2
      = (deltas.filter (fun kv => decide (0 < kv.2))).map (ftEntryFmt symOf decOf) := by
    unfold build_ft_items
    rw [hgo]
    simp
  refine ⟨h1, h2, ?_, ?_⟩
  · intro s hs
    rw [h1] at hs
    rcases List.mem_map.mp hs with ⟨kv, hkv, rfl⟩
    have hneg : kv.2 < 0 := by simpa using (List.mem_filter.mp hkv).2
    refine ⟨fmt_amount (Int.natAbs kv.2) (if kv.1 = "eth" then 18 else decOf kv.1)
      ++ " " ++ (if kv.1 = "eth" then "ETH" else symOf kv.1), ?_⟩
    unfold ftEntryFmt format_token_display_signed
    split
    · simp [hneg, String.append_assoc]
    · simp [hneg, String.append_assoc]
  · intro s hs
    rw [h2] at hs
    rcases List.mem_map.mp hs with ⟨kv, hkv, rfl⟩
    have hpos : 0 < kv.2 := by simpa using (List.mem_filter.mp hkv).2
    have hneg : ¬(kv.2 < 0) := by omega
    refine ⟨fmt_amount (Int.natAbs kv.2) (if kv.1 = "eth" then 18 else decOf kv.1)
      ++ " " ++ (if kv.1 = "eth" then "ETH" else symOf kv.1), ?_⟩
    unfold ftEntryFmt format_token_display_signed
    split
    · simp [hneg, String.append_assoc]
    · simp [hneg, String.append_assoc]

/-- Claim C10 witness: the partition applied at a concrete delta map holding
one negative, one positive and one zero entry. -/
theorem TB_C10_witness :
    (build_ft_items [("eth", -5), ("t", 3), ("z", 0)] exSymOf exDecOf).1
      = [ftEntryFmt exSymOf exDecOf ("eth", -5)]
    ∧ (∃ r, ftEntryFmt exSymOf exDecOf ("eth", (-5 : Int)) = "-" ++ r)
    ∧ (∃ r, ftEntryFmt exSymOf exDecOf ("t", (3 : Int)) = "+" ++ r) := by
  have h := TB_C10 [("eth", -5), ("t", 3), ("z", 0)] exSymOf exDecOf
  refine ⟨?_, ?_, ?_⟩
  · rw [h.1]
    rfl
  · exact h.2.2.1 _ (by rw [h.1]; exact List.mem_map_of_mem _ (by decide))
  · exact h.2.2.2 _ (by rw [h.2.1]; exact List.mem_map_of_mem _ (by decide))

theorem countP_one_le_of_mem {d : List (String × Int)} {p : Int → Bool} {kv : String × Int}
    (hm : kv ∈ d) (hp : p kv.2 = true) :
    1 ≤ (d.map Prod.snd).countP p := by
  have h : ∃ v ∈ d.map Prod.snd, p v = true :=
    ⟨kv.2, List.mem_map_of_mem Prod.snd hm, hp⟩
  have h2 := List.countP_pos_iff.mpr h
  omega

theorem countP_zero_of_all {d : List (String × Int)} {p : Int → Bool}
    (h : ∀ kv ∈ d, ¬p kv.2 = true) :
    (d.map Prod.snd).countP p = 0 := by
  refine List.countP_eq_zero.mpr ?_
  intro v hv
  rcases List.mem_map.mp hv with ⟨kv, hkv, rfl⟩
  exact h kv hkv

/-- The sign-pattern rule of classify_from_balances, case by case. -/
theorem classify_sign_cases (d : List (String × Int)) :
    ((∃ kv ∈ d, kv.2 < 0) → (∃ kv ∈ d, 0 < kv.2) → classify_from_balances d = "swap")
    ∧ ((∃ kv ∈ d, kv.2 < 0) → (∀ kv ∈ d, ¬(0 < kv.2)) →
        classify_from_balances d = "add_liquidity")
    ∧ ((∀ kv ∈ d, ¬(kv.2 < 0)) → (∃ kv ∈ d, 0 < kv.2) →
        classify_from_balances d = "remove_liquidity")
    ∧ ((∀ kv ∈ d, ¬(kv.2 < 0)) → (∀ kv ∈ d, ¬(0 < kv.2)) →
        classify_from_balances d = "unknown") := by
  refine ⟨?_, ?_, ?_, ?_⟩
  · rintro ⟨kv1, hm1, hv1⟩ ⟨kv2, hm2, hv2⟩
    have hn := @countP_one_le_of_mem d (fun v => decide (v < 0)) kv1 hm1 (by simpa using hv1)
    have hp := @countP_one_le_of_mem d (fun v => decide (0 < v)) kv2 hm2 (by simpa using hv2)
    unfold classify_from_balances
    rw [if_pos ⟨hn, hp⟩]
  · rintro ⟨kv1, hm1, hv1⟩ hall
    have hn := @countP_one_le_of_mem d (fun v => decide (v < 0)) kv1 hm1 (by simpa using hv1)
    have hp0 := @countP_zero_of_all d (fun v => decide (0 < v))
      (by intro kv hkv; simpa using hall kv hkv)
    unfold classify_from_balances
    rw [if_neg (by rw [hp0]; omega), if_pos ⟨hn, hp0⟩]
  · rintro hall ⟨kv2, hm2, hv2⟩
    have hp := @countP_one_le_of_mem d (fun v => decide (0 < v)) kv2 hm2 (by simpa using hv2)
    have hn0 := @countP_zero_of_all d (fun v => decide (v < 0))
      (by intro kv hkv; simpa using hall kv hkv)
    unfold classify_from_balances
    rw [if_neg (by rw [hn0]; omega), if_neg (by rw [hn0]; omega), if_pos ⟨hn0, hp⟩]
  · intro halln hallp
    have hn0 := @countP_zero_of_all d (fun v => decide (v < 0))
      (by intro kv hkv; simpa using halln kv hkv)
    have hp0 := @countP_zero_of_all d (fun v => decide (0 < v))
      (by intro kv hkv; simpa using hallp kv hkv)
    unfold classify_from_balances
    rw [if_neg (by rw [hn0]; omega), if_neg (by rw [hn0]; omega),
        if_neg (by rw [hp0]; omega)]

/-- Claim C7: with no matching topic, classification is determined solely by
the sign pattern of the deltas (positive and negative present gives swap,
only negative gives add_liquidity, only positive gives remove_liquidity,
no nonzero delta gives unknown); and Scenario A holds concretely: a wallet
receiving 1.5 native units with no logs and a successful receipt yields the
delta map eth to 1500000000000000000 and is classified remove_liquidity by
the topic-then-balance classification expression of decode_one_from_row. -/
theorem TB_C7 :
    (∀ d : List (String × Int),
      ((∃ kv ∈ d, kv.2 < 0) → (∃ kv ∈ d, 0 < kv.2) → classify_from_balances d = "swap")
      ∧ ((∃ kv ∈ d, kv.2 < 0) → (∀ kv ∈ d, ¬(0 < kv.2)) →
          classify_from_balances d = "add_liquidity")
      ∧ ((∀ kv ∈ d, ¬(kv.2 < 0)) → (∃ kv ∈ d, 0 < kv.2) →
          classify_from_balances d = "remove_liquidity")
      ∧ ((∀ kv ∈ d, ¬(kv.2 < 0)) → (∀ kv ∈ d, ¬(0 < kv.2)) →
          classify_from_balances d = "unknown"))
    ∧ compute_wallet_deltas scenRow scenRcpt exWallet exOracle
        = .ok ([("eth", 1500000000000000000)], [])
    ∧ classify_from_topics scenRcpt.logs = none
    ∧ ((classify_from_topics scenRcpt.logs).getD
        (classify_from_balances [("eth", 1500000000000000000)])) = "remove_liquidity" :=
  ⟨classify_sign_cases, by decide, by decide, by decide⟩

/-- Claim C7 witness: the sign-pattern rule applied at concrete delta maps,
one for each of the four cases. -/
theorem TB_C7_witness :
    classify_from_balances [("a", (-2 : Int)), ("b", 3)] = "swap"
    ∧ classify_from_balances [("a", (-2 : Int))] = "add_liquidity"
    ∧ classify_from_balances [("b", (3 : Int))] = "remove_liquidity"
    ∧ classify_from_balances [("z", (0 : Int))] = "unknown" :=
  ⟨(TB_C7.1 [("a", -2), ("b", 3)]).1 ⟨("a", -2), by decide, by decide⟩
      ⟨("b", 3), by decide, by decide⟩,
   (TB_C7.1 [("a", -2)]).2.1 ⟨("a", -2), by decide, by decide⟩ (by decide),
   (TB_C7.1 [("b", 3)]).2.2.1 (by decide) ⟨("b", 3), by decide, by decide⟩,
   (TB_C7.1 [("z", 0)]).2.2.2 (by decide) (by decide)⟩

/-- Helper: appending two nonzero-quantity move lists to a base preserves the
nonzero-quantity shape. -/
theorem shape_append2 (base m1 m2 : List (String × Nat × Int))
    (h1 : ∀ m ∈ m1, m.2.2 ≠ 0) (h2 : ∀ m ∈ m2, m.2.2 ≠ 0) :
    ∃ L, base ++ m1 ++ m2 = base ++ L ∧ ∀ m ∈ L, m.2.2 ≠ 0 := by
  refine ⟨m1 ++ m2, by simp, ?_⟩
  intro m hm
  rcases List.mem_append.mp hm with hmm | hmm
  · exact h1 m hmm
  · exact h2 m hmm

theorem shape_append2_or (base m1 m2 : List (String × Nat × Int))
    (h1 : ∀ m ∈ m1, m.2.2 = 1 ∨ m.2.2 = -1) (h2 : ∀ m ∈ m2, m.2.2 = 1 ∨ m.2.2 = -1) :
    ∃ L, base ++ m1 ++ m2 = base ++ L ∧ ∀ m ∈ L, m.2.2 = 1 ∨ m.2.2 = -1 := by
  refine ⟨m1 ++ m2, by simp, ?_⟩
  intro m hm
  rcases List.mem_append.mp hm with hmm | hmm
  · exact h1 m hmm
  · exact h2 m hmm

/-- Every move emitted by the ERC-1155 batch loop has nonzero quantity. -/
theorem batchMoves_nonzero (wallet addr frm toA : String) (pairs : List (Nat × Nat)) :
    ∀ m ∈ batchMoves wallet addr frm toA pairs, m.2.2 ≠ 0 := by
  unfold batchMoves
  suffices h : ∀ ps (acc : List (String × Nat × Int)), (∀ m ∈ acc, m.2.2 ≠ 0) →
      ∀ m ∈ List.foldl (fun (acc : List (String × Nat × Int)) (p : Nat × Nat) =>
        if p.2 = 0 then acc
        else acc ++ (if frm = wallet then [(addr, p.1, -(p.2 : Int))] else [])
            ++ (if toA = wallet then [(addr, p.1, (p.2 : Int))] else [])) acc ps,
        m.2.2 ≠ 0 by
    exact h pairs [] (by simp)
  intro ps
  induction ps with
  | nil => intro acc hacc m hm; exact hacc m hm
  | cons p rest ih =>
    intro acc hacc m hm
    refine ih _ ?_ m hm
    intro m1 hm1
    by_cases hz : p.2 = 0
    · simp [hz] at hm1
      exact hacc m1 hm1
    · simp [hz] at hm1
      rcases hm1 with h1 | h2 | h3
      · exact hacc m1 h1
      · rcases h2 with ⟨hf, he⟩
        subst he
        simpa using hz
      · rcases h3 with ⟨hf, he⟩
        subst he
        simpa using hz

theorem shape_batch (base : List (String × Nat × Int)) (wallet addr frm toA : String)
    (pairs : List (Nat × Nat)) :
    ∃ L, base ++ batchMoves wallet addr frm toA pairs = base ++ L ∧ ∀ m ∈ L, m.2.2 ≠ 0 :=
  ⟨batchMoves wallet addr frm toA pairs, rfl, batchMoves_nonzero wallet addr frm toA pairs⟩

/-- One log-loop step only appends moves of nonzero quantity. -/
theorem processLog_nft_shape (wallet : String) (st : DeltaState) (lg : LogEntry)
    (st2 : DeltaState) (h : processLog wallet st lg = .ok st2) :
    ∃ L, st2.nft = st.nft ++ L ∧ ∀ m ∈ L, m.2.2 ≠ 0 := by
  cases hlt : lg.topics with
  | nil =>
    simp only [processLog, hlt] at h
    cases h
    exact ⟨[], by simp⟩
  | cons t0 rest =>
    simp only [processLog, hlt] at h
    repeat' split at h
    all_goals try cases h
    all_goals try ((refine ⟨[], ?_, ?_⟩ <;> simp); done)
    all_goals try (exact shape_batch _ _ _ _ _ _)
    all_goals try dsimp only
    all_goals apply shape_append2
    all_goals intro m hm
    all_goals simp at hm <;> subst hm <;> simp <;> omega

theorem foldlM_nft_shape (wallet : String) (logs : List LogEntry) :
    ∀ st st2, List.foldlM (processLog wallet) st logs = .ok st2 →
      ∃ L, st2.nft = st.nft ++ L ∧ ∀ m ∈ L, m.2.2 ≠ 0 := by
  induction logs with
  | nil =>
    intro st st2 h
    cases h
    exact ⟨[], by simp⟩
  | cons lg rest ih =>
    intro st st2 h
    rw [List.foldlM_cons] at h
    cases hp : processLog wallet st lg with
    | error e => rw [hp] at h; cases h
    | ok s1 =>
      rw [hp] at h
      rcases processLog_nft_shape wallet st lg s1 hp with ⟨L1, hL1, hnz1⟩
      rcases ih s1 st2 h with ⟨L2, hL2, hnz2⟩
      refine ⟨L1 ++ L2, ?_, ?_⟩
      · rw [hL2, hL1, List.append_assoc]
      · intro m hm
        rcases List.mem_append.mp hm with hmm | hmm
        · exact hnz1 m hmm
        · exact hnz2 m hmm

/-- The ERC-721 branch (4-topic Transfer) appends only quantity 1 or -1. -/
theorem erc721_moves_unit (wallet : String) (st : DeltaState) (addr t0 : String)
    (rest : List String) (dat : Option String) (st2 : DeltaState)
    (ht : t0 = TOPIC_TRANSFER) (hlen : 3 ≤ rest.length)
    (h : processLog wallet st ⟨addr, t0 :: rest, dat⟩ = .ok st2) :
    ∃ L, st2.nft = st.nft ++ L ∧ ∀ m ∈ L, m.2.2 = 1 ∨ m.2.2 = -1 := by
  subst ht
  have l1 : 3 ≤ (TOPIC_TRANSFER :: rest).length := by
    simpa using Nat.le_succ_of_le hlen
  have l2 : 4 ≤ (TOPIC_TRANSFER :: rest).length := by
    simpa using Nat.succ_le_succ hlen
  cases hz : h2i (some ((TOPIC_TRANSFER :: rest).getD 3 "")) with
  | error e =>
    simp only [processLog, hz, l1, l2] at h
    simp at h
  | ok tid =>
    by_cases hw : wallet = ""
    · simp only [processLog, hz, l1, l2, hw] at h
      simp at h
      cases h
      exact ⟨[], by simp⟩
    · simp only [processLog, hz, l1, l2] at h
      rw [if_pos trivial] at h
      rw [if_pos hw] at h
      cases h
      dsimp only
      apply shape_append2_or
      all_goals intro m hm
      all_goals split at hm <;> simp_all

/-- Claim C9: every NftMove produced by compute_wallet_deltas has a strictly
nonzero signed quantity; the ERC-721 branch only ever appends moves of
quantity 1 or -1; and an ERC-1155 batch with a zero decoded value yields
fewer NftMoves than array pairs (here one move from two pairs). -/
theorem TB_C9 :
    (∀ row rcpt wallet o res, compute_wallet_deltas row rcpt wallet o = .ok res →
      ∀ m ∈ res.2, m.2.2 ≠ 0)
    ∧ (∀ wallet st addr t0 rest dat st2, t0 = TOPIC_TRANSFER → 3 ≤ rest.length →
      processLog wallet st ⟨addr, t0 :: rest, dat⟩ = .ok st2 →
      ∃ L, st2.nft = st.nft ++ L ∧ ∀ m ∈ L, m.2.2 = 1 ∨ m.2.2 = -1)
    ∧ abiDecodeUintArrays (bytesOfHexData exZeroBatchData) = some ([7, 9], [0, 4])
    ∧ processLog exWallet ⟨[], 0, []⟩ exZeroBatchLogTo = .ok ⟨[], 0, [(exNftContract, 9, 4)]⟩ := by
  refine ⟨?_, ?_, by decide, by decide⟩
  · intro row rcpt wallet o res h m hm
    unfold compute_wallet_deltas at h
    cases hf : rcpt.logs.foldlM (processLog (pyWallet wallet)) (initialDelta row (pyWallet wallet)) with
    | error e => rw [hf] at h; cases h
    | ok st =>
      rw [hf] at h
      cases h
      rcases foldlM_nft_shape (pyWallet wallet) rcpt.logs _ st hf with ⟨L, hL, hnz⟩
      have hm2 : m ∈ st.nft := hm
      rw [hL] at hm2
      simp [initialDelta] at hm2
      exact hnz m hm2
  · intro wallet st addr t0 rest dat st2 ht hlen h
    exact erc721_moves_unit wallet st addr t0 rest dat st2 ht hlen h

/-- Claim C9 witness: the nonzero-quantity invariant applied at a concrete
decode producing one ERC-721 move, and the ERC-721 branch theorem applied at
the same concrete log. -/
theorem TB_C9_witness :
    ((exNftContract, 5, (1 : Int))).2.2 ≠ 0
    ∧ (∃ L, (⟨[], 0, [(exNftContract, 5, 1)]⟩ : DeltaState).nft
        = (⟨[], 0, []⟩ : DeltaState).nft ++ L ∧ ∀ m ∈ L, m.2.2 = 1 ∨ m.2.2 = -1) :=
  ⟨TB_C9.1 exRowB exRcptB exWallet exOracle ([], [(exNftContract, 5, 1)])
      (by decide) (exNftContract, 5, 1) (by decide),
   TB_C9.2.1 exWallet ⟨[], 0, []⟩ exNftContract TOPIC_TRANSFER
      [exOtherTopic, exWalletTopic, pad64 "5"] (some "0x") ⟨[], 0, [(exNftContract, 5, 1)]⟩
      rfl (by decide) (by decide)⟩

/-- Claim C4 counterexample: a batch-transfer log whose data ABI-decodes to
ids = [7, 9], values = [0, 4] with the wallet as sender emits exactly one
NftMove, not two: the zero-valued pair is dropped, so the claim as stated
(exactly two NftMoves with signed quantities -v1, -v2 for every decoded
pair list of length two) is false. -/
theorem TB_C4_counterexample :
    abiDecodeUintArrays (bytesOfHexData exZeroBatchData) = some ([7, 9], [0, 4])
    ∧ address_from_topic exWalletTopic = exWallet
    ∧ processLog exWallet ⟨[], 0, []⟩ exZeroBatchLog = .ok ⟨[], 0, [(exNftContract, 9, -4)]⟩
    ∧ [(exNftContract, 9, (-4 : Int))].length ≠ 2 := by
  decide

/-- Claim C4 (amended): for an ERC-1155 batch log whose data ABI-decodes to
ids = [i1, i2] and values = [v1, v2] with both values strictly positive and
the wallet as the sender (or recipient) address, the decoder emits exactly
two NftMoves with token ids i1, i2 and signed quantities -v1, -v2 (or
+v1, +v2); and for any batch log whose two decoded arrays have different
lengths it emits zero NftMoves and raises no exception. -/
theorem TB_C4_amended :
    (∀ wallet st caddr t1 ft tt d i1 i2 v1 v2,
      wallet ≠ "" → is_hex_data d = true → d ≠ "0x" →
      abiDecodeUintArrays (bytesOfHexData d) = some ([i1, i2], [v1, v2]) →
      address_from_topic ft = wallet → address_from_topic tt ≠ wallet →
      0 < v1 → 0 < v2 →
      processLog wallet st ⟨caddr, [TOPIC_TRANSFER_BATCH, t1, ft, tt], some d⟩
        = .ok { st with nft := st.nft ++
            [(toLowerStr caddr, i1, -(v1 : Int)), (toLowerStr caddr, i2, -(v2 : Int))] })
    ∧ (∀ wallet st caddr t1 ft tt d i1 i2 v1 v2,
      wallet ≠ "" → is_hex_data d = true → d ≠ "0x" →
      abiDecodeUintArrays (bytesOfHexData d) = some ([i1, i2], [v1, v2]) →
      address_from_topic ft ≠ wallet → address_from_topic tt = wallet →
      0 < v1 → 0 < v2 →
      processLog wallet st ⟨caddr, [TOPIC_TRANSFER_BATCH, t1, ft, tt], some d⟩
        = .ok { st with nft := st.nft ++
            [(toLowerStr caddr, i1, (v1 : Int)), (toLowerStr caddr, i2, (v2 : Int))] })
    ∧ (∀ wallet st caddr t1 ft tt d ids vals,
      abiDecodeUintArrays (bytesOfHexData d) = some (ids, vals) →
      ids.length ≠ vals.length →
      processLog wallet st ⟨caddr, [TOPIC_TRANSFER_BATCH, t1, ft, tt], some d⟩ = .ok st) := by
  refine ⟨?_, ?_, ?_⟩
  · intro wallet st caddr t1 ft tt d i1 i2 v1 v2 hw hhex h0x hdec hf ht hv1 hv2
    have hd : d ≠ "" := by
      intro e
      rw [e] at hhex
      exact absurd hhex (by decide)
    have hv1n : v1 ≠ 0 := by omega
    have hv2n : v2 ≠ 0 := by omega
    simp +decide [processLog, hd, hhex, h0x, hdec, hw, hf, ht, batchMoves, hv1n, hv2n]
  · intro wallet st caddr t1 ft tt d i1 i2 v1 v2 hw hhex h0x hdec hf ht hv1 hv2
    have hd : d ≠ "" := by
      intro e
      rw [e] at hhex
      exact absurd hhex (by decide)
    have hv1n : v1 ≠ 0 := by omega
    have hv2n : v2 ≠ 0 := by omega
    simp +decide [processLog, hd, hhex, h0x, hdec, hw, hf, ht, batchMoves, hv1n, hv2n]
  · intro wallet st caddr t1 ft tt d ids vals hdec hlen
    by_cases hd : d = ""
    · simp +decide [processLog, hd]
    · by_cases hhex : is_hex_data d
      · by_cases h0x : d = "0x"
        · simp +decide [processLog, hd, h0x]
        · simp +decide [processLog, hd, hhex, h0x, hdec, hlen]
      · simp +decide [processLog, hd, hhex]

/-- Claim C4 witness: the amended theorem at a concrete batch encoding
ids = [7, 9], values = [3, 4] (sender and recipient directions) and at a
concrete mismatched encoding ids = [7, 9], values = [4]. -/
theorem TB_C4_witness :
    processLog exWallet ⟨[], 0, []⟩
        ⟨exNftContract, [TOPIC_TRANSFER_BATCH, "t", exWalletTopic, exOtherTopic], some exBatchData⟩
      = .ok ⟨[], 0, [(exNftContract, 7, -3), (exNftContract, 9, -4)]⟩
    ∧ processLog exWallet ⟨[], 0, []⟩
        ⟨exNftContract, [TOPIC_TRANSFER_BATCH, "t", exOtherTopic, exWalletTopic], some exBatchData⟩
      = .ok ⟨[], 0, [(exNftContract, 7, 3), (exNftContract, 9, 4)]⟩
    ∧ processLog exWallet ⟨[], 0, []⟩
        ⟨exNftContract, [TOPIC_TRANSFER_BATCH, "t", exWalletTopic, exOtherTopic], some exMismatchData⟩
      = .ok ⟨[], 0, []⟩ :=
  ⟨TB_C4_amended.1 exWallet ⟨[], 0, []⟩ exNftContract "t" exWalletTopic exOtherTopic
      exBatchData 7 9 3 4 (by decide) (by decide) (by decide) (by decide) (by decide)
      (by decide) (by decide) (by decide),
   TB_C4_amended.2.1 exWallet ⟨[], 0, []⟩ exNftContract "t" exOtherTopic exWalletTopic
      exBatchData 7 9 3 4 (by decide) (by decide) (by decide) (by decide) (by decide)
      (by decide) (by decide) (by decide),
   TB_C4_amended.2.2 exWallet ⟨[], 0, []⟩ exNftContract "t" exWalletTopic exOtherTopic
      exMismatchData [7, 9] [4] (by decide) (by decide)⟩

/-- Claim C3 counterexample: the last output ledger column written by the
pipeline is spelled "nft_transfere", not the "nft_transfer" of the spec
serialization contract, so the column names do not match character for
character. -/
theorem TB_C3_counterexample :
    a01_cols ≠ specLedgerColumns ∧ a01_cols.getD 9 "" = "nft_transfere" := by
  decide

/-- Claim C3 (amended): every output ledger row has the stable column order
tx_hash, tx_timestamp, block_time, type, from_address, to_address,
amount_sent, amount_received, total_gas_eth and then the NFT column, which
is spelled "nft_transfere"; the priced output consumes exactly these ten
columns and appends the two ratio columns weth_per_wbtc, wbtc_per_weth
after them. -/
theorem TB_C3_amended :
    a01_cols = specLedgerColumns.take 9 ++ ["nft_transfere"]
    ∧ INPUT_FIELDS = a01_cols
    ∧ OUTPUT_FIELDS = a01_cols ++ ["weth_per_wbtc", "wbtc_per_weth"] := by
  decide

/-- Claim C1 counterexample: a receipt holding a single malformed log (a WETH
Deposit whose data payload "0xzz" is not valid hex) makes
compute_wallet_deltas raise (int(x, 16) inside h2i) instead of skipping the
log, so the delta computation does not return normally for every malformed
individual log. -/
theorem TB_C1_counterexample :
    compute_wallet_deltas exRowA exBadRcpt exWallet exOracle = .error () := by
  decide

/-- Claim C1 (amended): malformed payloads are skipped with zero contribution
and no exception in the guarded paths: an ERC-20 transfer log whose data is
not valid hex, an ERC-1155 batch log whose data is not valid hex or fails
ABI decoding, and an ERC-1155 single-transfer log with a truncated payload
all leave the state unchanged.  (The unguarded h2i paths - ERC-721 token-id
topic, long non-hex TransferSingle data, WETH Deposit/Withdrawal data -
raise, as the counterexample shows.) -/
theorem TB_C1_amended :
    (∀ wallet st addr t1 t2 d, is_hex_data d = false →
      processLog wallet st ⟨addr, [TOPIC_TRANSFER, t1, t2], some d⟩ = .ok st)
    ∧ (∀ wallet st addr t1 t2 t3 d, is_hex_data d = false →
      processLog wallet st ⟨addr, [TOPIC_TRANSFER_BATCH, t1, t2, t3], some d⟩ = .ok st)
    ∧ (∀ wallet st addr t1 t2 t3 d, is_hex_data d = true → d ≠ "0x" →
      abiDecodeUintArrays (bytesOfHexData d) = none →
      processLog wallet st ⟨addr, [TOPIC_TRANSFER_BATCH, t1, t2, t3], some d⟩ = .ok st)
    ∧ (∀ wallet st addr t1 t2 t3 d, (d.data.drop 2).length < 128 →
      processLog wallet st ⟨addr, [TOPIC_TRANSFER_SINGLE, t1, t2, t3], some d⟩ = .ok st) := by
  refine ⟨?_, ?_, ?_, ?_⟩
  · intro wallet st addr t1 t2 d h
    simp +decide [processLog, h]
  · intro wallet st addr t1 t2 t3 d h
    by_cases hd : d = ""
    · simp +decide [processLog, hd]
    · simp +decide [processLog, hd, h]
  · intro wallet st addr t1 t2 t3 d h1 h2 h3
    have hd : d ≠ "" := by
      intro e
      rw [e] at h1
      exact absurd h1 (by decide)
    simp +decide [processLog, hd, h1, h2, h3, batchMoves]
  · intro wallet st addr t1 t2 t3 d h
    by_cases hd : d = ""
    · simp +decide [processLog, hd]
    · simp +decide [processLog, hd]
      intro h2
      have e : d.length = d.data.length := rfl
      simp [List.length_drop] at h
      omega

/-- Claim C1 witness: the amended theorem applied at concrete malformed logs
of each guarded shape. -/
theorem TB_C1_witness :
    (is_hex_data "0xqq" = false
      ∧ processLog exWallet ⟨[], 0, []⟩ ⟨"0xc", [TOPIC_TRANSFER, "a", "b"], some "0xqq"⟩
          = .ok ⟨[], 0, []⟩)
    ∧ processLog exWallet ⟨[], 0, []⟩ ⟨"0xc", [TOPIC_TRANSFER_BATCH, "a", "b", "c"], some "0xqq"⟩
        = .ok ⟨[], 0, []⟩
    ∧ (abiDecodeUintArrays (bytesOfHexData "0x07") = none
      ∧ processLog exWallet ⟨[], 0, []⟩ ⟨"0xc", [TOPIC_TRANSFER_BATCH, "a", "b", "c"], some "0x07"⟩
          = .ok ⟨[], 0, []⟩)
    ∧ processLog exWallet ⟨[], 0, []⟩ ⟨"0xc", [TOPIC_TRANSFER_SINGLE, "a", "b", "c"], some "0xff"⟩
        = .ok ⟨[], 0, []⟩ :=
  ⟨⟨by decide, TB_C1_amended.1 exWallet ⟨[], 0, []⟩ "0xc" "a" "b" "0xqq" (by decide)⟩,
   TB_C1_amended.2.1 exWallet ⟨[], 0, []⟩ "0xc" "a" "b" "c" "0xqq" (by decide),
   ⟨by decide, TB_C1_amended.2.2.1 exWallet ⟨[], 0, []⟩ "0xc" "a" "b" "c" "0x07"
      (by decide) (by decide) (by decide)⟩,
   TB_C1_amended.2.2.2 exWallet ⟨[], 0, []⟩ "0xc" "a" "b" "c" "0xff" (by decide)⟩


theorem roundHE_abs_sub (x : ℚ) : |(roundHE x : ℚ) - x| ≤ 1 / 2 := by
  simp only [roundHE]
  have h1 : (⌊x⌋ : ℚ) ≤ x := Int.floor_le x
  have h2 : x < ⌊x⌋ + 1 := Int.lt_floor_add_one x
  split
  case isTrue h =>
    rw [abs_le]
    constructor <;> linarith
  case isFalse h =>
    push_neg at h
    split
    case isTrue h3 =>
      push_cast
      rw [abs_le]
      constructor <;> linarith
    case isFalse h3 =>
      push_neg at h3
      have hr : x - ⌊x⌋ = 1 / 2 := le_antisymm h3 h
      split
      · rw [abs_le]
        constructor <;> linarith
      · push_cast
        rw [abs_le]
        constructor <;> linarith

theorem roundHE_intCast (k : Int) : roundHE (k : ℚ) = k := by
  simp only [roundHE, Int.floor_intCast]
  rw [if_pos]
  norm_num

theorem nlog10_bounds : ∀ (fuel n : Nat), 1 ≤ n → n ≤ fuel →
    10 ^ (nlog10 fuel n) ≤ n ∧ n < 10 ^ (nlog10 fuel n + 1) := by
  intro fuel
  induction fuel with
  | zero =>
    intro n h1 h2
    omega
  | succ f ih =>
    intro n h1 h2
    unfold nlog10
    split
    case isTrue h =>
      constructor
      · simpa using h1
      · simpa using h
    case isFalse h =>
      push_neg at h
      have hm1 : 1 ≤ n / 10 := by omega
      have hm2 : n / 10 ≤ f := by omega
      rcases ih (n / 10) hm1 hm2 with ⟨hlo, hhi⟩
      constructor
      · calc 10 ^ (nlog10 f (n / 10) + 1) = 10 ^ (nlog10 f (n / 10)) * 10 := by ring
        _ ≤ n / 10 * 10 := by omega
        _ ≤ n := by omega
      · calc n < n / 10 * 10 + 10 := by omega
        _ ≤ 10 ^ (nlog10 f (n / 10) + 1) * 10 := by
            have : n / 10 + 1 ≤ 10 ^ (nlog10 f (n / 10) + 1) := hhi
            nlinarith
        _ = 10 ^ (nlog10 f (n / 10) + 1 + 1) := by ring

theorem natLog10_bounds (n : Nat) (h1 : 1 ≤ n) :
    10 ^ (natLog10 n) ≤ n ∧ n < 10 ^ (natLog10 n + 1) :=
  nlog10_bounds n n h1 (le_refl n)

theorem ratLog10_bounds (x : ℚ) (hx : 0 < x) :
    (10 : ℚ) ^ (ratLog10 x) ≤ x ∧ x < (10 : ℚ) ^ (ratLog10 x + 1) := by
  have h10 : (10 : ℚ) ≠ 0 := by norm_num
  have hnum : 0 < x.num := Rat.num_pos.mpr hx
  have hden : 0 < x.den := x.pos
  have hna : 1 ≤ x.num.natAbs := by omega
  have hnd : 1 ≤ x.den := hden
  rcases natLog10_bounds x.num.natAbs hna with ⟨ha1, ha2⟩
  rcases natLog10_bounds x.den hnd with ⟨hb1, hb2⟩
  have hnumq : ((x.num.natAbs : ℚ)) = (x.num : ℚ) := by
    rw [Int.cast_natAbs]
    exact_mod_cast abs_of_pos hnum
  have hdq : (0 : ℚ) < (x.den : ℚ) := by exact_mod_cast hden
  have hxeq : x = (x.num : ℚ) / (x.den : ℚ) := (Rat.num_div_den x).symm
  -- rational bounds on num and den
  have hnq1 : (10 : ℚ) ^ (natLog10 x.num.natAbs) ≤ (x.num : ℚ) := by
    rw [← hnumq]
    exact_mod_cast ha1
  have hnq2 : (x.num : ℚ) < (10 : ℚ) ^ (natLog10 x.num.natAbs + 1) := by
    rw [← hnumq]
    exact_mod_cast ha2
  have hdq1 : (10 : ℚ) ^ (natLog10 x.den) ≤ (x.den : ℚ) := by exact_mod_cast hb1
  have hdq2 : ((x.den : ℚ)) < (10 : ℚ) ^ (natLog10 x.den + 1) := by exact_mod_cast hb2
  set a : ℤ := (natLog10 x.num.natAbs : ℤ) with hadef
  set b : ℤ := (natLog10 x.den : ℤ) with hbdef
  have hza : (10 : ℚ) ^ a = (10 : ℚ) ^ (natLog10 x.num.natAbs) := by
    rw [hadef, zpow_natCast]
  have hzb : (10 : ℚ) ^ b = (10 : ℚ) ^ (natLog10 x.den) := by
    rw [hbdef, zpow_natCast]
  have hza1 : (10 : ℚ) ^ (a + 1) = (10 : ℚ) ^ (natLog10 x.num.natAbs + 1) := by
    rw [hadef]
    rw [show ((natLog10 x.num.natAbs : ℤ) + 1) = ((natLog10 x.num.natAbs + 1 : ℕ) : ℤ) by push_cast; ring]
    rw [zpow_natCast]
  have hzb1 : (10 : ℚ) ^ (b + 1) = (10 : ℚ) ^ (natLog10 x.den + 1) := by
    rw [hbdef]
    rw [show ((natLog10 x.den : ℤ) + 1) = ((natLog10 x.den + 1 : ℕ) : ℤ) by push_cast; ring]
    rw [zpow_natCast]
  -- strict upper bound: x < 10 ^ (a - b + 1)
  have hxup : x < (10 : ℚ) ^ (a - b + 1) := by
    rw [hxeq, div_lt_iff₀ hdq]
    have step1 : (x.num : ℚ) < (10 : ℚ) ^ (a + 1) := by rw [hza1]; exact hnq2
    have step2 : (10 : ℚ) ^ (a + 1) ≤ (10 : ℚ) ^ (a - b + 1) * (x.den : ℚ) := by
      have hbase : (10 : ℚ) ^ (a - b + 1) * (10 : ℚ) ^ b = (10 : ℚ) ^ (a + 1) := by
        rw [← zpow_add₀ h10]
        ring_nf
      calc (10 : ℚ) ^ (a + 1) = (10 : ℚ) ^ (a - b + 1) * (10 : ℚ) ^ b := hbase.symm
        _ ≤ (10 : ℚ) ^ (a - b + 1) * (x.den : ℚ) := by
            have hp : (0 : ℚ) < (10 : ℚ) ^ (a - b + 1) := by positivity
            have : (10 : ℚ) ^ b ≤ (x.den : ℚ) := by rw [hzb]; exact hdq1
            nlinarith
    linarith
  -- strict lower bound: 10 ^ (a - b - 1) < x
  have hxlo : (10 : ℚ) ^ (a - b - 1) < x := by
    rw [hxeq, lt_div_iff₀ hdq]
    have step1 : (10 : ℚ) ^ (a - b - 1) * (x.den : ℚ) < (10 : ℚ) ^ (a - b - 1) * (10 : ℚ) ^ (b + 1) := by
      have hp : (0 : ℚ) < (10 : ℚ) ^ (a - b - 1) := by positivity
      have : ((x.den : ℚ)) < (10 : ℚ) ^ (b + 1) := by rw [hzb1]; exact hdq2
      nlinarith
    have step2 : (10 : ℚ) ^ (a - b - 1) * (10 : ℚ) ^ (b + 1) = (10 : ℚ) ^ a := by
      rw [← zpow_add₀ h10]
      ring_nf
    have step3 : (10 : ℚ) ^ a ≤ (x.num : ℚ) := by rw [hza]; exact hnq1
    linarith
  -- unfold ratLog10
  have habs : |x| = x := abs_of_pos hx
  simp only [ratLog10, habs]
  split
  case isTrue hc =>
    exact ⟨hc, hxup⟩
  case isFalse hc =>
    push_neg at hc
    have hgoal : x < (10 : ℚ) ^ (a - b) := hc
    constructor
    · exact le_of_lt hxlo
    · show x < (10 : ℚ) ^ (a - b - 1 + 1)
      rw [show (a - b - 1 + 1 : ℤ) = a - b from by ring]
      exact hgoal

theorem ratLog10_eq_of (x : ℚ) (e : ℤ) (hx : 0 < x)
    (h1 : (10 : ℚ) ^ e ≤ x) (h2 : x < (10 : ℚ) ^ (e + 1)) : ratLog10 x = e := by
  rcases ratLog10_bounds x hx with ⟨hb1, hb2⟩
  by_contra hne
  rcases lt_or_gt_of_ne hne with hlt | hgt
  · have hmm : (10 : ℚ) ^ (ratLog10 x + 1) ≤ (10 : ℚ) ^ e := by
      gcongr
      · norm_num
      · omega
    linarith
  · have hmm : (10 : ℚ) ^ (e + 1) ≤ (10 : ℚ) ^ (ratLog10 x) := by
      gcongr
      · norm_num
      · omega
    linarith

theorem roundHE_eq_add_one_of (x : ℚ) (m : ℤ) (h1 : (m : ℚ) ≤ x) (h2 : x < m + 1)
    (h3 : (1 : ℚ) / 2 < x - m) : roundHE x = m + 1 := by
  have hf : ⌊x⌋ = m := Int.floor_eq_iff.mpr ⟨h1, h2⟩
  simp only [roundHE, hf]
  rw [if_neg (by linarith), if_pos (by linarith)]

theorem decRound_exact (p : ℕ) (x : ℚ) (e m : ℤ) (hx : x ≠ 0)
    (he : ratLog10 x = e) (hm : x * (10 : ℚ) ^ ((p : ℤ) - 1 - e) = (m : ℚ)) :
    decRound p x = x := by
  simp only [decRound, if_neg hx, he]
  rw [hm, roundHE_intCast, ← hm, mul_assoc, ← zpow_add₀ (by norm_num : (10 : ℚ) ≠ 0)]
  simp

theorem decRound_eq_of (p : ℕ) (x : ℚ) (e m : ℤ) (hx : x ≠ 0)
    (he : ratLog10 x = e) (hm : roundHE (x * (10 : ℚ) ^ ((p : ℤ) - 1 - e)) = m) :
    decRound p x = (m : ℚ) * (10 : ℚ) ^ (-((p : ℤ) - 1 - e)) := by
  simp only [decRound, if_neg hx, he, hm]

theorem decRound_close (p : ℕ) (x : ℚ) (hx : 0 < x) :
    |decRound p x - x| ≤ x * (10 : ℚ) ^ (1 - (p : ℤ)) := by
  have h10 : (10 : ℚ) ≠ 0 := by norm_num
  have hxne : x ≠ 0 := ne_of_gt hx
  simp only [decRound, if_neg hxne]
  set s : ℤ := (p : ℤ) - 1 - ratLog10 x with hs
  set y : ℚ := x * (10 : ℚ) ^ s with hy
  have hc : (roundHE y : ℚ) * (10 : ℚ) ^ (-s) - x = ((roundHE y : ℚ) - y) * (10 : ℚ) ^ (-s) := by
    rw [hy, sub_mul, mul_assoc, ← zpow_add₀ h10]
    simp
  rw [hc, abs_mul, abs_of_pos (by positivity : (0 : ℚ) < (10 : ℚ) ^ (-s))]
  have h1 : |(roundHE y : ℚ) - y| ≤ 1 / 2 := roundHE_abs_sub y
  have h2 : (10 : ℚ) ^ (ratLog10 x) ≤ x := (ratLog10_bounds x hx).1
  have h3 : (10 : ℚ) ^ (-s) ≤ x * (10 : ℚ) ^ (1 - (p : ℤ)) := by
    have hsplit : (10 : ℚ) ^ (-s) = (10 : ℚ) ^ (ratLog10 x) * (10 : ℚ) ^ (1 - (p : ℤ)) := by
      rw [← zpow_add₀ h10]
      congr 1
      rw [hs]
      ring
    rw [hsplit]
    have hp : (0 : ℚ) < (10 : ℚ) ^ (1 - (p : ℤ)) := by positivity
    nlinarith
  have hp2 : (0 : ℚ) < (10 : ℚ) ^ (-s) := by positivity
  calc |(roundHE y : ℚ) - y| * (10 : ℚ) ^ (-s) ≤ (1 / 2) * (10 : ℚ) ^ (-s) := by nlinarith
    _ ≤ (10 : ℚ) ^ (-s) := by linarith
    _ ≤ x * (10 : ℚ) ^ (1 - (p : ℤ)) := h3

theorem decRound_rel (x : ℚ) (hx : 0 < x) :
    x * (1 - 1 / 10 ^ 59) ≤ decRound 60 x ∧ decRound 60 x ≤ x * (1 + 1 / 10 ^ 59) := by
  have h := decRound_close 60 x hx
  have hconv : (10 : ℚ) ^ (1 - ((60 : ℕ) : ℤ)) = 1 / 10 ^ 59 := by norm_num
  rw [hconv] at h
  rcases abs_le.mp h with ⟨h1, h2⟩
  constructor <;> nlinarith

theorem decRound_pos60 (x : ℚ) (hx : 0 < x) : 0 < decRound 60 x := by
  have h := (decRound_rel x hx).1
  nlinarith

theorem decRound_q96sq : decRound 60 (Q96 * Q96) = (2 : ℚ) ^ 192 := by
  have hq : Q96 * Q96 = (2 : ℚ) ^ 192 := by
    simp only [Q96]
    norm_num
  rw [hq]
  apply decRound_exact 60 _ 57 (2 ^ 192 * 100)
  · positivity
  · apply ratLog10_eq_of _ _ (by positivity)
    · norm_num
    · norm_num
  · push_cast
    norm_num

theorem decRound_one60 : decRound 60 (1 : ℚ) = 1 := by
  apply decRound_exact 60 _ 0 (10 ^ 59) one_ne_zero
  · apply ratLog10_eq_of _ _ one_pos
    · norm_num
    · norm_num
  · push_cast
    norm_num

theorem decPow10_adj : decPow10 (18 - 6) = (10 : ℚ) ^ (12 : ℤ) := by
  simp only [decPow10]
  rw [show ((18 : ℤ) - 6) = (12 : ℤ) by norm_num]
  apply decRound_exact 60 _ 12 (10 ^ 59)
  · positivity
  · apply ratLog10_eq_of _ _ (by positivity)
    · norm_num
    · norm_num
  · push_cast
    norm_num

theorem decRound_inv_q192 :
    decRound 60 (1 / (2 : ℚ) ^ 192)
      = ((159309191113245227702888039776771180559110455519261878607389 : ℤ) : ℚ)
          * (10 : ℚ) ^ (-117 : ℤ) := by
  have he : ratLog10 (1 / (2 : ℚ) ^ 192) = -58 := by
    apply ratLog10_eq_of _ _ (by positivity)
    · norm_num
    · norm_num
  have hm : roundHE (1 / (2 : ℚ) ^ 192 * (10 : ℚ) ^ (((60 : ℕ) : ℤ) - 1 - (-58)))
      = 159309191113245227702888039776771180559110455519261878607389 := by
    rw [show (159309191113245227702888039776771180559110455519261878607389 : ℤ)
        = 159309191113245227702888039776771180559110455519261878607388 + 1 by norm_num]
    apply roundHE_eq_add_one_of
    · norm_num
    · push_cast
      norm_num
    · push_cast
      norm_num
  rw [decRound_eq_of 60 _ (-58) _ (by positivity) he hm]
  norm_num

theorem price_one :
    price_from_sqrtPriceX96 1
      = ((159309191113245227702888039776771180559110455519261878607389 : ℤ) : ℚ)
          * (10 : ℚ) ^ (-117 : ℤ) := by
  have h1 : ((1 : ℕ) : ℚ) * ((1 : ℕ) : ℚ) = 1 := by norm_num
  simp only [price_from_sqrtPriceX96, h1, decRound_one60, decRound_q96sq]
  exact decRound_inv_q192

theorem ratio_one :
    (get_ratios_v3 1 18 6).1
      = ((159309191113245227702888039776771180559110455519261878607389 : ℤ) : ℚ)
          * (10 : ℚ) ^ (-105 : ℤ) := by
  simp only [get_ratios_v3, price_one, decPow10_adj]
  have harg : ((159309191113245227702888039776771180559110455519261878607389 : ℤ) : ℚ)
      * (10 : ℚ) ^ (-117 : ℤ) * (10 : ℚ) ^ (12 : ℤ)
      = ((159309191113245227702888039776771180559110455519261878607389 : ℤ) : ℚ)
          * (10 : ℚ) ^ (-105 : ℤ) := by
    rw [mul_assoc, ← zpow_add₀ (by norm_num : (10 : ℚ) ≠ 0)]
    norm_num
  rw [harg]
  apply decRound_exact 60 _ (-46) 159309191113245227702888039776771180559110455519261878607389
  · positivity
  · apply ratLog10_eq_of _ _ (by positivity)
    · push_cast
      norm_num
    · push_cast
      norm_num
  · push_cast
    norm_num

/-- Claim C8 counterexample: with sqrtPrice X = 1 and decimals (18, 6), the
first returned ratio is the 60-significant-digit rounded value
1.59309…389e-46, not the exact (X/2^96)^2 * 10^12 = 10^12/2^192; the two
differ because 5^117 is not representable in 60 decimal digits. -/
theorem TB_C8_counterexample :
    (get_ratios_v3 1 18 6).1 ≠ (((1 : ℕ) : ℚ) / 2 ^ 96) ^ 2 * 10 ^ 12 := by
  rw [ratio_one]
  push_cast
  norm_num

/-- Claim C8 (amended): for a concentrated-liquidity probe returning
sqrtPrice X >= 1 with decimals (18, 6), the first returned ratio equals
(X/2^96)^2 * 10^12 up to a relative error of 1e-30 (the Decimal context
rounds each operation to 60 significant digits), and the product of the two
returned ratios equals 1 within 1e-30. -/
theorem TB_C8_amended (X : ℕ) (hX : 1 ≤ X) :
    |(get_ratios_v3 X 18 6).1 * (get_ratios_v3 X 18 6).2 - 1| ≤ 1 / 10 ^ 30
    ∧ |(get_ratios_v3 X 18 6).1 - ((X : ℚ) / 2 ^ 96) ^ 2 * 10 ^ 12|
        ≤ ((X : ℚ) / 2 ^ 96) ^ 2 * 10 ^ 12 / 10 ^ 30 := by
  have hX0 : (0 : ℚ) < (X : ℚ) := by
    have : 0 < X := hX
    exact_mod_cast this
  have hfst : (get_ratios_v3 X 18 6).1
      = decRound 60 (decRound 60 (decRound 60 ((X : ℚ) * (X : ℚ)) / (2 : ℚ) ^ 192)
          * (10 : ℚ) ^ (12 : ℤ)) := by
    simp only [get_ratios_v3, price_from_sqrtPriceX96, decRound_q96sq, decPow10_adj]
  have hsnd : (get_ratios_v3 X 18 6).2 = decRound 60 (1 / (get_ratios_v3 X 18 6).1) := rfl
  rw [hsnd, hfst]
  set A := decRound 60 ((X : ℚ) * (X : ℚ)) with hA_def
  set P := decRound 60 (A / (2 : ℚ) ^ 192) with hP_def
  set E := decRound 60 (P * (10 : ℚ) ^ (12 : ℤ)) with hE_def
  set W := decRound 60 (1 / E) with hW_def
  have hx2 : (0 : ℚ) < (X : ℚ) * (X : ℚ) := mul_pos hX0 hX0
  have hA := decRound_rel ((X : ℚ) * (X : ℚ)) hx2
  have hApos : 0 < A := decRound_pos60 _ hx2
  have hQpos : (0 : ℚ) < A / (2 : ℚ) ^ 192 := by positivity
  have hP := decRound_rel (A / (2 : ℚ) ^ 192) hQpos
  have hPpos : 0 < P := decRound_pos60 _ hQpos
  have hPw : (0 : ℚ) < P * (10 : ℚ) ^ (12 : ℤ) := by positivity
  have hE := decRound_rel (P * (10 : ℚ) ^ (12 : ℤ)) hPw
  have hEpos : 0 < E := decRound_pos60 _ hPw
  have hEne : E ≠ 0 := ne_of_gt hEpos
  have h1E : (0 : ℚ) < 1 / E := by positivity
  have hW := decRound_rel (1 / E) h1E
  constructor
  · -- product of the two ratios is 1 within 1e-30
    have hup : E * W ≤ E * (1 / E * (1 + 1 / 10 ^ 59)) :=
      mul_le_mul_of_nonneg_left hW.2 (le_of_lt hEpos)
    have hlo : E * (1 / E * (1 - 1 / 10 ^ 59)) ≤ E * W :=
      mul_le_mul_of_nonneg_left hW.1 (le_of_lt hEpos)
    have hcan1 : E * (1 / E * (1 + 1 / 10 ^ 59)) = 1 + 1 / 10 ^ 59 := by
      field_simp
      ring
    have hcan2 : E * (1 / E * (1 - 1 / 10 ^ 59)) = 1 - 1 / 10 ^ 59 := by
      field_simp
      ring
    rw [hcan1] at hup
    rw [hcan2] at hlo
    rw [abs_le]
    constructor
    · nlinarith
    · nlinarith
  · -- first ratio within relative 1e-30 of the exact value
    have hRe : ((X : ℚ) / 2 ^ 96) ^ 2 * 10 ^ 12
        = (X : ℚ) * (X : ℚ) * (10 : ℚ) ^ (12 : ℤ) / (2 : ℚ) ^ 192 := by
      rw [div_pow]
      rw [show ((2 : ℚ) ^ 96) ^ 2 = (2 : ℚ) ^ 192 by norm_num]
      rw [show (10 : ℚ) ^ (12 : ℤ) = (10 : ℚ) ^ (12 : ℕ) by norm_num]
      ring
    rw [hRe]
    set R : ℚ := (X : ℚ) * (X : ℚ) * (10 : ℚ) ^ (12 : ℤ) / (2 : ℚ) ^ 192 with hR_def
    have hRpos : 0 < R := by
      rw [hR_def]
      positivity
    -- upper chain: E <= R * (1 + 1/10^59)^3
    have hchain_up : E ≤ R * ((1 + 1 / 10 ^ 59) * ((1 + 1 / 10 ^ 59) * (1 + 1 / 10 ^ 59))) := by
      have s3 : A / (2 : ℚ) ^ 192
          ≤ ((X : ℚ) * (X : ℚ) * (1 + 1 / 10 ^ 59)) / (2 : ℚ) ^ 192 := by
        gcongr
        exact hA.2
      calc E ≤ P * (10 : ℚ) ^ (12 : ℤ) * (1 + 1 / 10 ^ 59) := hE.2
        _ ≤ (A / (2 : ℚ) ^ 192 * (1 + 1 / 10 ^ 59)) * (10 : ℚ) ^ (12 : ℤ)
              * (1 + 1 / 10 ^ 59) := by
            have := mul_le_mul_of_nonneg_right hP.2
              (show (0 : ℚ) ≤ (10 : ℚ) ^ (12 : ℤ) by positivity)
            exact mul_le_mul_of_nonneg_right this (by norm_num)
        _ ≤ (((X : ℚ) * (X : ℚ) * (1 + 1 / 10 ^ 59)) / (2 : ℚ) ^ 192 * (1 + 1 / 10 ^ 59))
              * (10 : ℚ) ^ (12 : ℤ) * (1 + 1 / 10 ^ 59) := by
            have h' := mul_le_mul_of_nonneg_right s3 (show (0 : ℚ) ≤ 1 + 1 / 10 ^ 59 by norm_num)
            have h'' := mul_le_mul_of_nonneg_right h'
              (show (0 : ℚ) ≤ (10 : ℚ) ^ (12 : ℤ) by positivity)
            exact mul_le_mul_of_nonneg_right h'' (by norm_num)
        _ = R * ((1 + 1 / 10 ^ 59) * ((1 + 1 / 10 ^ 59) * (1 + 1 / 10 ^ 59))) := by
            rw [hR_def]
            ring
    -- lower chain: R * (1 - 1/10^59)^3 <= E
    have hchain_lo : R * ((1 - 1 / 10 ^ 59) * ((1 - 1 / 10 ^ 59) * (1 - 1 / 10 ^ 59))) ≤ E := by
      have s3 : ((X : ℚ) * (X : ℚ) * (1 - 1 / 10 ^ 59)) / (2 : ℚ) ^ 192
          ≤ A / (2 : ℚ) ^ 192 := by
        gcongr
        exact hA.1
      calc R * ((1 - 1 / 10 ^ 59) * ((1 - 1 / 10 ^ 59) * (1 - 1 / 10 ^ 59)))
          = (((X : ℚ) * (X : ℚ) * (1 - 1 / 10 ^ 59)) / (2 : ℚ) ^ 192 * (1 - 1 / 10 ^ 59))
              * (10 : ℚ) ^ (12 : ℤ) * (1 - 1 / 10 ^ 59) := by
            rw [hR_def]
            ring
        _ ≤ (A / (2 : ℚ) ^ 192 * (1 - 1 / 10 ^ 59)) * (10 : ℚ) ^ (12 : ℤ)
              * (1 - 1 / 10 ^ 59) := by
            have h' := mul_le_mul_of_nonneg_right s3 (show (0 : ℚ) ≤ 1 - 1 / 10 ^ 59 by norm_num)
            have h'' := mul_le_mul_of_nonneg_right h'
              (show (0 : ℚ) ≤ (10 : ℚ) ^ (12 : ℤ) by positivity)
            exact mul_le_mul_of_nonneg_right h'' (by norm_num)
        _ ≤ P * (10 : ℚ) ^ (12 : ℤ) * (1 - 1 / 10 ^ 59) := by
            have := mul_le_mul_of_nonneg_right hP.1
              (show (0 : ℚ) ≤ (10 : ℚ) ^ (12 : ℤ) by positivity)
            exact mul_le_mul_of_nonneg_right this (by norm_num)
        _ ≤ E := hE.1
    have hcube_up : (1 + 1 / 10 ^ 59 : ℚ) * ((1 + 1 / 10 ^ 59) * (1 + 1 / 10 ^ 59))
        ≤ 1 + 1 / 10 ^ 30 := by norm_num
    have hcube_lo : (1 - 1 / 10 ^ 30 : ℚ)
        ≤ (1 - 1 / 10 ^ 59) * ((1 - 1 / 10 ^ 59) * (1 - 1 / 10 ^ 59)) := by norm_num
    have hfin_up : E ≤ R * (1 + 1 / 10 ^ 30) := by
      calc E ≤ R * ((1 + 1 / 10 ^ 59) * ((1 + 1 / 10 ^ 59) * (1 + 1 / 10 ^ 59))) := hchain_up
        _ ≤ R * (1 + 1 / 10 ^ 30) := mul_le_mul_of_nonneg_left hcube_up (le_of_lt hRpos)
    have hfin_lo : R * (1 - 1 / 10 ^ 30) ≤ E := by
      calc R * (1 - 1 / 10 ^ 30)
          ≤ R * ((1 - 1 / 10 ^ 59) * ((1 - 1 / 10 ^ 59) * (1 - 1 / 10 ^ 59))) :=
            mul_le_mul_of_nonneg_left hcube_lo (le_of_lt hRpos)
        _ ≤ E := hchain_lo
    rw [abs_le]
    constructor
    · linarith [hfin_up, hfin_lo]
    · linarith [hfin_up, hfin_lo]

/-- Claim C8 witness: the amended relative-error bounds instantiated at the
concrete sqrtPrice X = 3. -/
theorem TB_C8_witness :
    (1 ≤ (3 : ℕ))
    ∧ (|(get_ratios_v3 3 18 6).1 * (get_ratios_v3 3 18 6).2 - 1| ≤ 1 / 10 ^ 30
      ∧ |(get_ratios_v3 3 18 6).1 - (((3 : ℕ) : ℚ) / 2 ^ 96) ^ 2 * 10 ^ 12|
          ≤ (((3 : ℕ) : ℚ) / 2 ^ 96) ^ 2 * 10 ^ 12 / 10 ^ 30) :=
  ⟨by norm_num, TB_C8_amended 3 (by norm_num)⟩
